import Mathlib

/-!
# Console calculator: operand resolution, handlers and base conversions

A shallow embedding of `Functions.c` / `Calculator.h`.

* The process state is a `World`: the unread characters of standard input, the
  characters written to standard output, and the two global memory slots
  `last_result` and `prev_result`.
* A C function that reads or prints becomes a function on `World`.  A call that
  does not return yields `none`: this happens when `while (getchar() != '\n');`
  runs on an input that holds no further newline (at end of input `getchar`
  keeps answering `EOF`, so the loop never exits), when an integer division
  traps, and when the recursion budget (`fuel`, the permitted nesting depth of
  `get_double_input`) is used up.
* `double` is `Double`: either `NAN` or a non-NaN datum `Num` (an infinity or
  `±m·2^e`).  Conversions between integers and doubles and the comparisons are
  computed on this representation.  Rounding arithmetic, the `libm` functions,
  the value of a floating literal and the `%.4lf` rendering belong to the C
  implementation, not to the repository: they are the fields of a `FloatEnv`.
* `long long` is `Int` reduced with `wrap64`; `unsigned long long` is `Nat`
  reduced modulo `2^64`.
-/

namespace Calculator

/-! ## Machine integers -/

/-- Smallest `long long`. -/
def LLONG_MIN : Int := -9223372036854775808

/-- Largest `long long`. -/
def LLONG_MAX : Int := 9223372036854775807

/-- Largest `unsigned long long`. -/
def ULLONG_MAX : Nat := 18446744073709551615

/-- Two's-complement reduction of an integer to `long long`. -/
def wrap64 (x : Int) : Int := (x + 9223372036854775808) % 18446744073709551616 - 9223372036854775808

/-- Two's-complement reduction of an integer to `int`. -/
def wrap32 (x : Int) : Int := (x + 2147483648) % 4294967296 - 2147483648

/-- Saturation to the `long long` range, as `strtoll` does on overflow. -/
def clamp64 (x : Int) : Int :=
  if x < LLONG_MIN then LLONG_MIN else if LLONG_MAX < x then LLONG_MAX else x

/-! ## Doubles -/

/-- A `double` that is not NaN: an infinity, or the finite value `±m·2^e`
(`neg` is the sign bit, so `fin true 0 e` is the negative zero). -/
inductive Num where
  | inf (neg : Bool)
  | fin (neg : Bool) (m : Nat) (e : Int)
  deriving DecidableEq

/-- A `double`: the macro `NAN`, or a non-NaN datum. -/
inductive Double where
  | NAN
  | num (x : Num)
  deriving DecidableEq

/-- The test `isnan(x)`. -/
def isnan : Double → Bool
  | .NAN => true
  | .num _ => false

/-- Round a natural number to 53 significant bits, ties to even: the result
`(m, e)` stands for `m·2^e`.  Numbers below `2^53` are kept as they are. -/
def round53 (n : Nat) : Nat × Int :=
  if n < 9007199254740992 then (n, 0)
  else
    let k := Nat.log2 n - 52
    let q := n / 2 ^ k
    let r := n % 2 ^ k
    let half := 2 ^ (k - 1)
    if half < r ∨ (r = half ∧ q % 2 = 1) then (q + 1, (k : Int)) else (q, (k : Int))

/-- The non-NaN datum an integer converts to. -/
def Num.ofInt (n : Int) : Num :=
  .fin (decide (n < 0)) (round53 n.natAbs).1 (round53 n.natAbs).2

/-- The conversion `(double)n` of an integer. -/
def Double.ofInt (n : Int) : Double := .num (Num.ofInt n)

/-- The conversion `(long long)d`, truncating toward zero.  ISO C leaves the
result undefined when the truncated value is not a `long long`; the model
answers `LLONG_MIN` there, as the x86-64 conversion instruction does. -/
def Double.toLL : Double → Int
  | .NAN => LLONG_MIN
  | .num (.inf _) => LLONG_MIN
  | .num (.fin neg m e) =>
    let mag : Int := if 0 ≤ e then (m * 2 ^ e.toNat : Nat) else (m / 2 ^ (-e).toNat : Nat)
    let v := if neg then -mag else mag
    if LLONG_MIN ≤ v ∧ v ≤ LLONG_MAX then v else LLONG_MIN

/-- The function `fabs`. -/
def fabs : Double → Double
  | .NAN => .NAN
  | .num (.inf _) => .num (.inf false)
  | .num (.fin _ m e) => .num (.fin false m e)

/-- The comparison `x == 0`. -/
def Double.isZero : Double → Bool
  | .num (.fin _ m _) => m == 0
  | _ => false

/-- The comparison `a < b` on non-NaN data. -/
def Num.lt : Num → Num → Bool
  | .inf true, .inf true => false
  | .inf true, _ => true
  | _, .inf true => false
  | .inf false, _ => false
  | .fin _ _ _, .inf false => true
  | .fin n1 m1 e1, .fin n2 m2 e2 =>
    let e := min e1 e2
    let a : Int := (if n1 then -1 else 1) * ((m1 * 2 ^ (e1 - e).toNat : Nat) : Int)
    let b : Int := (if n2 then -1 else 1) * ((m2 * 2 ^ (e2 - e).toNat : Nat) : Int)
    decide (a < b)

/-- The comparison `a < b` of doubles (false when either is NaN). -/
def Double.lt : Double → Double → Bool
  | .num a, .num b => a.lt b
  | _, _ => false

/-- The comparison `a <= b` of doubles (false when either is NaN). -/
def Double.le : Double → Double → Bool
  | .num a, .num b => !(b.lt a)
  | _, _ => false

/-- The floating-point primitives of the C implementation that the calculator
calls: the rounding operators, the `libm` functions, the value `strtod` gives
to the text of a well-formed decimal or hexadecimal floating literal (never
NaN), and the text `printf` writes for `%.4lf`. -/
structure FloatEnv where
  add : Double → Double → Double
  sub : Double → Double → Double
  mul : Double → Double → Double
  div : Double → Double → Double
  exp : Double → Double
  log : Double → Double
  pow : Double → Double → Double
  sin : Double → Double
  cos : Double → Double
  tan : Double → Double
  hypot : Double → Double → Double
  strtod : List Char → Num
  fmt4 : Double → String

/-! ## Process state and console primitives -/

/-- The state of the process: unread input, written output, and the globals
`last_result` and `prev_result`. -/
structure World where
  stdin : List Char
  stdout : List Char
  last_result : Double
  prev_result : Double
  deriving DecidableEq

/-- Append characters to standard output. -/
def World.write (w : World) (cs : List Char) : World :=
  { w with stdout := w.stdout ++ cs }

/-- A `printf` whose formatted text is `s`. -/
def World.printf (w : World) (s : String) : World :=
  w.write s.toList

/-- Replace the unread input. -/
def World.setIn (w : World) (rest : List Char) : World :=
  { w with stdin := rest }

/-- The C predicate `isspace`. -/
def isspace (c : Char) : Bool :=
  c = ' ' || c = '\t' || c = '\n' || c = '\x0b' || c = '\x0c' || c = '\r'

/-- The C predicate `isdigit`. -/
def isdigit (c : Char) : Bool := '0' ≤ c && c ≤ '9'

/-- The C predicate `isxdigit`. -/
def isxdigit (c : Char) : Bool :=
  ('0' ≤ c && c ≤ '9') || ('a' ≤ c && c ≤ 'f') || ('A' ≤ c && c ≤ 'F')

/-- The loop `while (getchar() != '\n');`: drop input through the next newline.
`none` when no newline is left. -/
def skipLine : List Char → Option (List Char)
  | [] => none
  | c :: cs => if c = '\n' then some cs else skipLine cs

/-- The call `scanf("%63s", buf)` on the unread input: skip white space, then take
at most `width` characters up to the next white space.  The first component
is the token, `none` at end of input (`scanf` answers `EOF`); the second is the
input left unread. -/
def scanf_s (width : Nat) (s : List Char) : Option (List Char) × List Char :=
  match s.dropWhile isspace with
  | [] => (none, [])
  | c :: cs =>
    let tok := ((c :: cs).takeWhile (fun x => !isspace x)).take width
    (some tok, (c :: cs).drop tok.length)

/-- Value of a decimal digit character. -/
def digitVal (c : Char) : Nat := c.toNat - '0'.toNat

/-- Value of a hexadecimal digit character. -/
def xdigitVal (c : Char) : Nat :=
  if isdigit c then c.toNat - '0'.toNat
  else if 'a' ≤ c && c ≤ 'f' then c.toNat - 'a'.toNat + 10
  else c.toNat - 'A'.toNat + 10

/-- Value of a string of decimal digits. -/
def decValue (ds : List Char) : Nat := ds.foldl (fun acc c => 10 * acc + digitVal c) 0

/-- Value of a string of hexadecimal digits. -/
def hexValue (ds : List Char) : Nat := ds.foldl (fun acc c => 16 * acc + xdigitVal c) 0

/-- An optional sign at the head of a text: the sign read and the text after it. -/
def scanSign : List Char → Bool × List Char
  | '-' :: t => (true, t)
  | '+' :: t => (false, t)
  | s => (false, s)

/-- Shared part of `scanf("%d")` and `scanf("%lld")`: skip white space, read an
optional sign and the decimal digits after it.  Answers the signed value (not
yet reduced to a machine type) and the input left unread; the value is `none`
on a matching failure or at end of input. -/
def scanDecimal (s : List Char) : Option Int × List Char :=
  let (neg, s2) := scanSign (s.dropWhile isspace)
  let ds := s2.takeWhile isdigit
  if ds.isEmpty then (none, s2)
  else (some (if neg then -(decValue ds : Int) else (decValue ds : Int)), s2.dropWhile isdigit)

/-- The call `scanf("%lld", &x)`; a value outside `long long` saturates as in
`strtoll` (ISO C leaves that case undefined). -/
def scanf_lld (s : List Char) : Option Int × List Char :=
  match scanDecimal s with
  | (none, r) => (none, r)
  | (some v, r) => (some (clamp64 v), r)

/-- The call `scanf("%d", &x)`; a value outside `int` is undefined in ISO C and
is modelled as in glibc on LP64: saturated to `long`, then truncated to `int`. -/
def scanf_d (s : List Char) : Option Int × List Char :=
  match scanDecimal s with
  | (none, r) => (none, r)
  | (some v, r) => (some (wrap32 (clamp64 v)), r)

/-- The call `sscanf(str, "%llx", &x)` on a token, following `strtoull(.., 16)`:
optional sign, optional `0x` prefix, hexadecimal digits; the unsigned value
saturates at `ULLONG_MAX`, a minus sign negates it modulo `2^64`, and the bits
are stored in the `long long`.  `none` on a matching failure. -/
def sscanf_llx (str : List Char) : Option Int :=
  let (neg, s2) := scanSign (str.dropWhile isspace)
  let s3 := match s2 with
    | '0' :: x :: h :: t => if (x = 'x' || x = 'X') && isxdigit h then h :: t else s2
    | _ => s2
  let ds := s3.takeWhile isxdigit
  if ds.isEmpty then none
  else
    let v := hexValue ds
    let u : Nat := if ULLONG_MAX < v then ULLONG_MAX
      else if neg then (18446744073709551616 - v) % 18446744073709551616 else v
    some (wrap64 u)

/-- The text `strtod` accepts at the head of `s` as a decimal or hexadecimal
floating literal without its sign: digits with an optional point and an
optional exponent, at least one digit in the mantissa.  `isd` recognises the
mantissa digits and `expc` is the exponent letter in lower case. -/
def scanMantExp (isd : Char → Bool) (expc : Char) (s : List Char) : Option (List Char) :=
  let ip := s.takeWhile isd
  let r1 := s.dropWhile isd
  let fp := match r1 with
    | '.' :: t => t.takeWhile isd
    | _ => []
  let dot := match r1 with
    | '.' :: _ => ['.']
    | _ => []
  let r2 := match r1 with
    | '.' :: t => t.dropWhile isd
    | _ => r1
  if ip.isEmpty && fp.isEmpty then none
  else
    let ex := match r2 with
      | c :: t =>
        if c.toLower = expc then
          let sg := match t with
            | '+' :: _ => ['+']
            | '-' :: _ => ['-']
            | _ => []
          let ed := (t.drop sg.length).takeWhile isdigit
          if ed.isEmpty then [] else c :: (sg ++ ed)
        else []
      | [] => []
    some (ip ++ dot ++ fp ++ ex)

/-- The unsigned numeric literal `scanf` reads at the head of `s`.  After a
`0x` prefix the next character must be a hexadecimal digit or the point,
otherwise the conversion is a matching failure (`0x`, `0xg`, `0xp3`); with
such a character the literal is the hexadecimal one when it has a mantissa
digit and the leading decimal `0` when it has none (`0x.`).  Without the
prefix the literal is decimal. -/
def scanNumber (s : List Char) : Option (List Char) :=
  match s with
  | '0' :: x :: t =>
    if x = 'x' || x = 'X' then
      match t with
      | h :: _ =>
        if isxdigit h || h = '.' then
          match scanMantExp isxdigit 'p' t with
          | some lit => some ('0' :: x :: lit)
          | none => scanMantExp isdigit 'e' s
        else none
      | [] => none
    else scanMantExp isdigit 'e' s
  | _ => scanMantExp isdigit 'e' s

/-- Does `s` begin with the lower-case word `word`, letter case ignored. -/
def startsWithCI (word : String) (s : List Char) : Bool :=
  (s.take word.length).map Char.toLower = word.toList

/-- The call `sscanf(str, "%lf", &value)` on a token, as the C library's `scanf`
performs it: white space, an optional sign, then `inf`, `infinity`, `nan`, or
the numeric literal at the head of the text; what follows is ignored.  After
`inf` a further `i` commits the conversion to the full word `infinity`
(`infi`, `infinit` are matching failures, `infx` is an infinity).  `none` is a
matching failure (`sscanf` does not answer 1). -/
def sscanf_lf (E : FloatEnv) (str : List Char) : Option Double :=
  let s1 := str.dropWhile isspace
  let neg := (scanSign s1).1
  let s2 := (scanSign s1).2
  if startsWithCI "inf" s2 then
    if startsWithCI "infi" s2 && !startsWithCI "infinity" s2 then none
    else some (.num (.inf neg))
  else if startsWithCI "nan" s2 then some .NAN
  else
    match scanNumber s2 with
    | none => none
    | some lit => some (.num (E.strtod (s1.take (s1.length - s2.length) ++ lit)))

/-- The call `atoi(str)`. -/
def atoi (str : List Char) : Int :=
  match scanDecimal str with
  | (some v, _) => wrap32 (clamp64 v)
  | (none, _) => 0

/-- The text `printf` writes for `%llX`: upper-case hexadecimal digits of an
unsigned value, least significant first, at most `k` of them. -/
def hexDigitsLSB : Nat → Nat → List Char
  | 0, _ => []
  | k + 1, u =>
    if u = 0 then []
    else (if u % 16 < 10 then Char.ofNat (48 + u % 16) else Char.ofNat (55 + u % 16))
      :: hexDigitsLSB k (u / 16)

/-- The text `printf` writes for `%llX` given a `long long` argument: the
argument is read as an unsigned 64-bit value. -/
def fmt_llX (dec : Int) : List Char :=
  let u := (dec % 18446744073709551616).toNat
  if u = 0 then ['0'] else (hexDigitsLSB 16 u).reverse

/-- The text `printf` writes for `%lld` and `%d`. -/
def fmt_lld (n : Int) : String := toString n

/-- The text `printf` writes for `%llu` given a `long long` argument. -/
def fmt_llu (n : Int) : String := toString (n % 18446744073709551616).toNat

/-! ## Memory -/

/-- `update_results`: shift the history when the new result is a number. -/
def update_results (new_result : Double) (w : World) : World :=
  if !isnan new_result then
    { w with prev_result := w.last_result, last_result := new_result }
  else w

/-! ## Menu choice -/

/-- `get_menu_choice`: read an integer and the rest of its line; `-1` unless it
lies in `1..max_choice`. -/
def get_menu_choice (max_choice : Int) (w : World) : Option (Int × World) :=
  match scanf_d w.stdin with
  | (none, rest) =>
    match skipLine rest with
    | none => none
    | some rest' =>
      some (-1, (w.setIn rest').printf "Invalid input. Please enter a number.\n")
  | (some choice, rest) =>
    match skipLine rest with
    | none => none
    | some rest' =>
      if choice < 1 ∨ choice > max_choice then
        some (-1, (w.setIn rest').printf
          ("Invalid choice. Please enter a number between 1 and " ++ fmt_lld max_choice ++ ".\n"))
      else some (choice, w.setIn rest')

/-! ## Numeric operation library -/

/-- The constant `DEG_TO_RAD`, that is `PI / 180.0`. -/
def DEG_TO_RAD (E : FloatEnv) : Double :=
  E.div (.num (E.strtod "3.14159265358979323846".toList)) (.num (E.strtod "180.0".toList))

/-- The function `add`. -/
def add (E : FloatEnv) (a b : Double) : Double := E.add a b

/-- The function `subtract`. -/
def subtract (E : FloatEnv) (a b : Double) : Double := E.sub a b

/-- The function `multiply`. -/
def multiply (E : FloatEnv) (a b : Double) : Double := E.mul a b

/-- The function `divide`. -/
def divide (E : FloatEnv) (a b : Double) (w : World) : Double × World :=
  if b.isZero then (.NAN, w.printf "Error: Division by zero!\n")
  else (E.div a b, w)

/-- The function `remainder_op`.  The quotient `LLONG_MIN / -1` is not a
`long long`: ISO C leaves `LLONG_MIN % -1` undefined and the x86-64 division
instruction traps on it, so that call does not return. -/
def remainder_op (a b : Int) (w : World) : Option (Int × World) :=
  if b = 0 then some (0, w.printf "Error: Modulo by zero!\n")
  else if a = LLONG_MIN ∧ b = -1 then none
  else some (Int.tmod a b, w)

/-- The function `exponential`. -/
def exponential (E : FloatEnv) (x : Double) : Double := E.exp x

/-- The function `logarithm`. -/
def logarithm (E : FloatEnv) (x : Double) (w : World) : Double × World :=
  if x.le (Double.ofInt 0) then (.NAN, w.printf "Error: Logarithm input must be positive.\n")
  else (E.log x, w)

/-- The function `abs_square_root`. -/
def abs_square_root (x : Double) : Double := fabs x

/-- The function `power`. -/
def power (E : FloatEnv) (base exp : Double) : Double := E.pow base exp

/-- The function `factorial`: the product is accumulated in an
`unsigned long long`, so every multiplication is reduced modulo `2^64`. -/
def factorial (n : Int) (w : World) : Nat × World :=
  if n < 0 then (0, w.printf "Error: Factorial is undefined for negative numbers.\n")
  else if n > 20 then (0, w.printf "Error: Input too large for factorial (max 20).\n")
  else if n = 0 then (1, w)
  else ((List.range' 1 n.toNat).foldl (fun result i => result * i % 18446744073709551616) 1, w)

/-- The function `sine_deg`. -/
def sine_deg (E : FloatEnv) (deg : Double) : Double := E.sin (E.mul deg (DEG_TO_RAD E))

/-- The function `cosine_deg`. -/
def cosine_deg (E : FloatEnv) (deg : Double) : Double := E.cos (E.mul deg (DEG_TO_RAD E))

/-- The function `tangent_deg`. -/
def tangent_deg (E : FloatEnv) (deg : Double) (w : World) : Double × World :=
  let rad := E.mul deg (DEG_TO_RAD E)
  let tan_val := E.tan rad
  if (fabs (E.cos rad)).lt (.num (E.strtod "1e-9".toList)) then
    (.NAN, w.printf "Warning: Tangent is undefined near 90 or 270 degrees.\n")
  else (tan_val, w)

/-- The function `cotangent_deg`. -/
def cotangent_deg (E : FloatEnv) (deg : Double) (w : World) : Double × World :=
  match tangent_deg E deg w with
  | (tan_val, w) =>
    if isnan tan_val then
      if (fabs (E.sin (E.mul deg (DEG_TO_RAD E)))).lt (.num (E.strtod "1e-9".toList)) then
        (.NAN, w.printf "Warning: Cotangent is undefined near 0 or 180 degrees.\n")
      else (.num (E.strtod "0.0".toList), w)
    else if (fabs tan_val).lt (.num (E.strtod "1e-9".toList)) then
      (.NAN, w.printf "Warning: Cotangent approaches infinity.\n")
    else (E.div (.num (E.strtod "1.0".toList)) tan_val, w)

/-- The function `hypotenuse`. -/
def hypotenuse (E : FloatEnv) (a b : Double) : Double := E.hypot a b

/-! ## Number system conversions -/

/-- The function `llabs`; `llabs(LLONG_MIN)` is undefined in ISO C and wraps
to `LLONG_MIN` here, as in two's-complement implementations. -/
def llabs (x : Int) : Int := wrap64 (x.natAbs : Int)

/-- The `while (temp_dec > 0 && i < 64)` loop of `dec_to_bin`: `k` is `64 - i`
and `binary_str` holds the `i` characters stored so far. -/
def dec_to_bin_loop : Nat → Nat → List Char → List Char
  | 0, _, binary_str => binary_str
  | k + 1, temp_dec, binary_str =>
    if temp_dec > 0 then
      dec_to_bin_loop k (temp_dec / 2) (binary_str ++ [Char.ofNat (temp_dec % 2 + '0'.toNat)])
    else binary_str

/-- The function `dec_to_bin`. -/
def dec_to_bin (dec : Int) (w : World) : World :=
  if dec = 0 then w.printf "Binary: 0\n"
  else
    let temp_dec : Nat := (llabs dec % 18446744073709551616).toNat
    if temp_dec = 0 then w.printf "Binary: 0\n"
    else
      let binary_str := dec_to_bin_loop 64 temp_dec []
      let w := w.printf ("Binary: " ++ (if dec < 0 then "-" else ""))
      let w := w.write binary_str.reverse
      w.printf "\n"

/-- The `for (i = len - 1; i >= 0; i--)` loop of `bin_to_dec`, over the
characters not yet visited, last character of the string first. -/
def bin_to_dec_loop : List Char → Int → Int → World → Int × World
  | [], dec, _, w => (dec, w)
  | c :: cs, dec, base, w =>
    if c = '1' then bin_to_dec_loop cs (wrap64 (dec + base)) (wrap64 (base * 2)) w
    else if c ≠ '0' then
      (-1, w.printf ("Error: Invalid binary digit '" ++ String.singleton c ++ "'.\n"))
    else bin_to_dec_loop cs dec (wrap64 (base * 2)) w

/-- The function `bin_to_dec`. -/
def bin_to_dec (bin_str : List Char) (w : World) : Int × World :=
  bin_to_dec_loop bin_str.reverse 0 1 w

/-- The function `dec_to_hex`. -/
def dec_to_hex (dec : Int) (w : World) : World :=
  w.write ("Hexadecimal: ".toList ++ fmt_llX dec ++ "\n".toList)

/-- The function `hex_to_dec`. -/
def hex_to_dec (hex_str : List Char) (w : World) : Int × World :=
  match sscanf_llx hex_str with
  | none => (-1, w.printf "Error: Invalid hexadecimal format.\n")
  | some dec => (dec, w)

/-- The function `hex_to_bin`. -/
def hex_to_bin (hex_str : List Char) (w : World) : World :=
  match hex_to_dec hex_str w with
  | (dec, w) =>
    if dec ≠ -1 then dec_to_bin dec (w.printf ("Decimal: " ++ fmt_lld dec ++ "\n"))
    else w

/-- The function `bin_to_hex`. -/
def bin_to_hex (bin_str : List Char) (w : World) : World :=
  match bin_to_dec bin_str w with
  | (dec, w) =>
    if dec ≠ -1 then dec_to_hex dec (w.printf ("Decimal: " ++ fmt_lld dec ++ "\n"))
    else w

/-! ## Operation handlers

A handler asks for its operands through `get_double_input`, which in turn may
call a handler.  The handlers below take the resolver they call as the
argument `gdi`; `get_double_input` ties the knot. -/

/-- The type of `get_double_input` once the environment and the recursion
budget are fixed: prompt, `use_result_option`, state. -/
abbrev Resolver := String → Int → World → Option (Double × World)

/-- The menu `handle_math_operations` prints. -/
def math_menu : String :=
  "\n--- Mathematical Operations ---\n" ++
  "1. Add (+)\n2. Subtract (-)\n3. Multiply (x)\n4. Divide (÷)\n" ++
  "5. Remainder (%)\n6. Exponential (exp(x))\n7. Logarithmic (log(x))\n" ++
  "8. Absolute value of input (sqrt(x^2))\n9. Power (x^y)\n10. Factorial (n!)\n" ++
  "11. Back to Previous Operation/Main Menu\n" ++
  "Enter choice (1-11): "

/-- The menu `handle_trig_operations` prints. -/
def trig_menu : String :=
  "\n--- Trigonometric Operations ---\n" ++
  "NOTE: Angles are in degrees.\n" ++
  "1. Sine (sin)\n2. Cosine (cos)\n3. Tangent (tan)\n4. Cotangent (cot)\n" ++
  "5. Hypotenuse (hyp, calculates c = sqrt(a^2 + b^2))\n" ++
  "6. Back to Previous Operation/Main Menu\n" ++
  "Enter choice (1-6): "

/-- The menu `handle_conversion_operations` prints. -/
def conv_menu : String :=
  "\n--- Number System Conversions ---\n" ++
  "Note: String input conversions (Bin/Hex) do NOT support R/P/Nested Ops.\n" ++
  "1. Dec to Bin\n2. Bin to Dec\n3. Dec to Hex\n4. Hex to Dec\n" ++
  "5. Hex to Bin (Intermediate)\n6. Bin to Hex (Intermediate)\n" ++
  "7. Back to Previous Operation/Main Menu\n" ++
  "Enter choice (1-7): "

/-- The single-operand branch of `handle_math_operations` (choices 6, 7, 8). -/
def math_single (E : FloatEnv) (gdi : Resolver) (math_choice : Int) (w : World) :
    Option (Double × World) :=
  match gdi "Enter a single number (x)" 1 w with
  | none => none
  | some (a, w) =>
    if isnan a then some (.NAN, w)
    else
      match math_choice with
      | 6 =>
        let result_d := exponential E a
        some (result_d, w.printf ("exp(" ++ E.fmt4 a ++ ") = " ++ E.fmt4 result_d ++ "\n"))
      | 7 =>
        match logarithm E a w with
        | (result_d, w) =>
          some (result_d, w.printf ("log(" ++ E.fmt4 a ++ ") = " ++ E.fmt4 result_d ++ "\n"))
      | 8 =>
        let result_d := abs_square_root a
        some (result_d,
          w.printf ("|" ++ E.fmt4 a ++ "| (sqrt(x^2)) = " ++ E.fmt4 result_d ++ "\n"))
      | _ => some (.NAN, w)

/-- The factorial branch of `handle_math_operations` (choice 10). -/
def math_factorial (w : World) : Option (Double × World) :=
  let w := w.printf "Enter a non-negative integer (n): "
  match scanf_d w.stdin with
  | (none, rest) =>
    match skipLine rest with
    | none => none
    | some rest' => some (.NAN, (w.setIn rest').printf "Invalid input.\n")
  | (some n, rest) =>
    match skipLine rest with
    | none => none
    | some rest' =>
      match factorial n (w.setIn rest') with
      | (result, w) =>
        let result_ll := wrap64 (result : Int)
        if result_ll ≠ 0 then
          some (Double.ofInt result_ll,
            w.printf (fmt_lld n ++ "! = " ++ fmt_llu result_ll ++ "\n"))
        else some (.NAN, w)

/-- The remainder branch of `handle_math_operations` (choice 5). -/
def math_remainder (w : World) : Option (Double × World) :=
  let w := w.printf
    "Enter two integers (a % b) - Note: R/P/Nested Op is NOT available for integer-only input.\n"
  let w := w.printf "Enter the first integer (a): "
  match scanf_lld w.stdin with
  | (none, rest) =>
    match skipLine rest with
    | none => none
    | some rest' => some (.NAN, (w.setIn rest').printf "Invalid input.\n")
  | (some a_ll, rest) =>
    let w := (w.setIn rest).printf "Enter the second integer (b): "
    match scanf_lld w.stdin with
    | (none, rest) =>
      match skipLine rest with
      | none => none
      | some rest' => some (.NAN, (w.setIn rest').printf "Invalid input.\n")
    | (some b_ll, rest) =>
      match skipLine rest with
      | none => none
      | some rest' =>
        match remainder_op a_ll b_ll (w.setIn rest') with
        | none => none
        | some (result_ll, w) =>
          if b_ll ≠ 0 then
            some (Double.ofInt result_ll,
              w.printf (fmt_lld a_ll ++ " % " ++ fmt_lld b_ll ++ " = " ++ fmt_lld result_ll ++ "\n"))
          else some (.NAN, w)

/-- The closing `switch` of `handle_math_operations`, on two resolved operands. -/
def math_binary (E : FloatEnv) (math_choice : Int) (a b : Double) (w : World) : Double × World :=
  match math_choice with
  | 1 =>
    let result_d := add E a b
    (result_d, w.printf (E.fmt4 a ++ " + " ++ E.fmt4 b ++ " = " ++ E.fmt4 result_d ++ "\n"))
  | 2 =>
    let result_d := subtract E a b
    (result_d, w.printf (E.fmt4 a ++ " - " ++ E.fmt4 b ++ " = " ++ E.fmt4 result_d ++ "\n"))
  | 3 =>
    let result_d := multiply E a b
    (result_d, w.printf (E.fmt4 a ++ " x " ++ E.fmt4 b ++ " = " ++ E.fmt4 result_d ++ "\n"))
  | 4 =>
    match divide E a b w with
    | (result_d, w) =>
      if !isnan result_d then
        (result_d, w.printf (E.fmt4 a ++ " ÷ " ++ E.fmt4 b ++ " = " ++ E.fmt4 result_d ++ "\n"))
      else (result_d, w)
  | 9 =>
    let result_d := power E a b
    (result_d, w.printf (E.fmt4 a ++ " ^ " ++ E.fmt4 b ++ " = " ++ E.fmt4 result_d ++ "\n"))
  | _ => (.NAN, w)

/-- The function `handle_math_operations`, calling the resolver `gdi`. -/
def handle_math_operations_with (E : FloatEnv) (gdi : Resolver) (w : World) :
    Option (Double × World) :=
  match get_menu_choice 11 (w.printf math_menu) with
  | none => none
  | some (math_choice, w) =>
    if math_choice = -1 ∨ math_choice = 11 then some (.NAN, w)
    else if math_choice = 6 ∨ math_choice = 7 ∨ math_choice = 8 then
      math_single E gdi math_choice w
    else if math_choice = 10 then math_factorial w
    else if math_choice = 5 then math_remainder w
    else
      match gdi "Enter the first number (a)" 1 w with
      | none => none
      | some (a, w) =>
        if isnan a then some (.NAN, w)
        else
          match gdi "Enter the second number (b)" 1 w with
          | none => none
          | some (b, w) =>
            if isnan b then some (.NAN, w)
            else some (math_binary E math_choice a b w)

/-- The closing `switch` of `handle_trig_operations`, on the resolved angle. -/
def trig_single (E : FloatEnv) (trig_choice : Int) (angle : Double) (w : World) : Double × World :=
  match trig_choice with
  | 1 =>
    let result_d := sine_deg E angle
    (result_d, w.printf ("sin(" ++ E.fmt4 angle ++ "°) = " ++ E.fmt4 result_d ++ "\n"))
  | 2 =>
    let result_d := cosine_deg E angle
    (result_d, w.printf ("cos(" ++ E.fmt4 angle ++ "°) = " ++ E.fmt4 result_d ++ "\n"))
  | 3 =>
    match tangent_deg E angle w with
    | (result_d, w) =>
      if !isnan result_d then
        (result_d, w.printf ("tan(" ++ E.fmt4 angle ++ "°) = " ++ E.fmt4 result_d ++ "\n"))
      else (result_d, w)
  | 4 =>
    match cotangent_deg E angle w with
    | (result_d, w) =>
      if !isnan result_d then
        (result_d, w.printf ("cot(" ++ E.fmt4 angle ++ "°) = " ++ E.fmt4 result_d ++ "\n"))
      else (result_d, w)
  | _ => (.NAN, w)

/-- The function `handle_trig_operations`, calling the resolver `gdi`. -/
def handle_trig_operations_with (E : FloatEnv) (gdi : Resolver) (w : World) :
    Option (Double × World) :=
  match get_menu_choice 6 (w.printf trig_menu) with
  | none => none
  | some (trig_choice, w) =>
    if trig_choice = -1 ∨ trig_choice = 6 then some (.NAN, w)
    else if trig_choice = 5 then
      match gdi "Enter side a" 1 w with
      | none => none
      | some (a, w) =>
        if isnan a then some (.NAN, w)
        else
          match gdi "Enter side b" 1 w with
          | none => none
          | some (b, w) =>
            if isnan b then some (.NAN, w)
            else
              let result_d := hypotenuse E a b
              some (result_d, w.printf ("Hypotenuse of " ++ E.fmt4 a ++ " and " ++ E.fmt4 b
                ++ " is " ++ E.fmt4 result_d ++ "\n"))
    else
      match gdi "Enter the angle in degrees" 1 w with
      | none => none
      | some (angle, w) =>
        if isnan angle then some (.NAN, w)
        else some (trig_single E trig_choice angle w)

/-- The string-input branch of `handle_conversion_operations` (choices 2, 4,
5, 6): `result_d` starts as `NAN` and is assigned in cases 2 and 4 only. -/
def conv_string (conv_choice : Int) (w : World) : Option (Double × World) :=
  let w := w.printf "Enter the number string: "
  match scanf_s 63 w.stdin with
  | (none, rest) =>
    match skipLine rest with
    | none => none
    | some rest' => some (.NAN, (w.setIn rest').printf "Invalid input.\n")
  | (some input_str, rest) =>
    match skipLine rest with
    | none => none
    | some rest' =>
      let w := w.setIn rest'
      match conv_choice with
      | 2 =>
        match bin_to_dec input_str w with
        | (dec_val, w) =>
          if dec_val ≠ -1 then
            some (Double.ofInt dec_val, w.printf ("Decimal: " ++ fmt_lld dec_val ++ "\n"))
          else some (.NAN, w)
      | 4 =>
        match hex_to_dec input_str w with
        | (dec_val, w) =>
          if dec_val ≠ -1 then
            some (Double.ofInt dec_val, w.printf ("Decimal: " ++ fmt_lld dec_val ++ "\n"))
          else some (.NAN, w)
      | 5 => some (.NAN, hex_to_bin input_str w)
      | 6 => some (.NAN, bin_to_hex input_str w)
      | _ => some (.NAN, w)

/-- The function `handle_conversion_operations`, calling the resolver `gdi`. -/
def handle_conversion_operations_with (gdi : Resolver) (w : World) : Option (Double × World) :=
  match get_menu_choice 7 (w.printf conv_menu) with
  | none => none
  | some (conv_choice, w) =>
    if conv_choice = -1 ∨ conv_choice = 7 then some (.NAN, w)
    else if conv_choice = 1 ∨ conv_choice = 3 then
      match gdi "Enter Decimal number (will be truncated to integer)" 1 w with
      | none => none
      | some (dec_d, w) =>
        if isnan dec_d then some (.NAN, w)
        else
          let dec_val := dec_d.toLL
          let w := match conv_choice with
            | 1 => dec_to_bin dec_val w
            | 3 => dec_to_hex dec_val w
            | _ => w
          some (Double.ofInt dec_val, w)
    else conv_string conv_choice w

/-! ## Operand resolver -/

/-- The tail of `get_double_input`: the token is converted with
`sscanf(input_buffer, "%lf", &value)`. -/
def parse_operand (E : FloatEnv) (input_buffer : List Char) (w : World) : Double × World :=
  match sscanf_lf E input_buffer with
  | none =>
    (.NAN, w.printf
      "Invalid input. Must be a number, 'R', 'P', or a nested menu choice (1, 2, or 3).\n")
  | some value => (value, w)

/-- The prompt line of `get_double_input`. -/
def print_prompt (E : FloatEnv) (prompt : String) (use_result_option : Int) (w : World) : World :=
  let w := w.printf prompt
  if use_result_option ≠ 0 then
    w.printf (" (or type 'R' for " ++ E.fmt4 w.last_result ++ " / 'P' for "
      ++ E.fmt4 w.prev_result ++ ", or 1/2/3 for Nested Op): ")
  else w.printf ": "

/-- The banner `get_double_input` prints before a nested operation. -/
def nested_banner (nested_choice : Int) : String :=
  "\n--- Nested Operation ("
    ++ (if nested_choice = 1 then "Math" else if nested_choice = 2 then "Trig" else "Conversion")
    ++ " selected) ---\n"

/-- The `switch (nested_choice)` of `get_double_input`; `value` keeps its
initial `NAN` when no case applies. -/
def nested_call (E : FloatEnv) (gdi : Resolver) (nested_choice : Int) (w : World) :
    Option (Double × World) :=
  match nested_choice with
  | 1 => handle_math_operations_with E gdi w
  | 2 => handle_trig_operations_with E gdi w
  | 3 =>
    handle_conversion_operations_with gdi (w.printf
      "Warning: Number conversions are integer-based and may lose precision when used as floating-point operands.\n")
  | _ => some (.NAN, w)

/-- One activation of `get_double_input`: the body of the function, with the
handlers' operand requests and the retry after a failed nested operation
served by the resolver `gdi`. -/
def get_double_input_with (E : FloatEnv) (gdi : Resolver) (prompt : String)
    (use_result_option : Int) (w : World) : Option (Double × World) :=
  let w := print_prompt E prompt use_result_option w
  match scanf_s 63 w.stdin with
  | (none, rest) =>
    match skipLine rest with
    | none => none
    | some rest' => some (.NAN, (w.setIn rest').printf "Invalid input format.\n")
  | (some input_buffer, rest) =>
    match skipLine rest with
    | none => none
    | some rest' =>
      let w := w.setIn rest'
      if use_result_option ≠ 0 then
        if input_buffer = "R".toList ∨ input_buffer = "r".toList then
          some (w.last_result,
            w.printf ("-> Using Last Result (R): " ++ E.fmt4 w.last_result ++ "\n"))
        else if input_buffer = "P".toList ∨ input_buffer = "p".toList then
          some (w.prev_result,
            w.printf ("-> Using Previous Result (P): " ++ E.fmt4 w.prev_result ++ "\n"))
        else if input_buffer = "1".toList ∨ input_buffer = "2".toList
            ∨ input_buffer = "3".toList then
          let nested_choice := atoi input_buffer
          let w := w.printf (nested_banner nested_choice)
          match nested_call E gdi nested_choice w with
          | none => none
          | some (value, w) =>
            if !isnan value then
              some (value,
                w.printf ("-> Nested Result: " ++ E.fmt4 value ++ " used as operand.\n"))
            else
              gdi prompt use_result_option (w.printf
                "\nNested operation failed or cancelled. Please re-enter the required operand.\n")
        else some (parse_operand E input_buffer w)
      else some (parse_operand E input_buffer w)

/-- The function `get_double_input`.  `fuel` bounds the depth of the calls of
`get_double_input` nested inside this one (through a handler or through the
retry after a failed nested operation); with no fuel the call has not
returned. -/
def get_double_input (E : FloatEnv) : Nat → Resolver
  | 0 => fun _ _ _ => none
  | fuel + 1 => get_double_input_with E (get_double_input E fuel)

/-- The function `handle_math_operations`, its operand requests served by
`get_double_input` with budget `fuel`. -/
def handle_math_operations (E : FloatEnv) (fuel : Nat) (w : World) : Option (Double × World) :=
  handle_math_operations_with E (get_double_input E fuel) w

/-- The function `handle_trig_operations`, its operand requests served by
`get_double_input` with budget `fuel`. -/
def handle_trig_operations (E : FloatEnv) (fuel : Nat) (w : World) : Option (Double × World) :=
  handle_trig_operations_with E (get_double_input E fuel) w

/-- The function `handle_conversion_operations`, its operand requests served by
`get_double_input` with budget `fuel`. -/
def handle_conversion_operations (E : FloatEnv) (fuel : Nat) (w : World) :
    Option (Double × World) :=
  handle_conversion_operations_with (get_double_input E fuel) w

/-! ## Returning calls

A call returns `r` when some recursion budget lets it return `r`. -/

/-- `get_double_input(prompt, use_result_option)` started in `w` returns `r`. -/
def Resolves (E : FloatEnv) (prompt : String) (use_result_option : Int) (w : World)
    (r : Double × World) : Prop :=
  ∃ fuel, get_double_input E fuel prompt use_result_option w = some r

/-- `handle_math_operations()` started in `w` returns `r`. -/
def MathReturns (E : FloatEnv) (w : World) (r : Double × World) : Prop :=
  ∃ fuel, handle_math_operations E fuel w = some r

/-- `handle_trig_operations()` started in `w` returns `r`. -/
def TrigReturns (E : FloatEnv) (w : World) (r : Double × World) : Prop :=
  ∃ fuel, handle_trig_operations E fuel w = some r

/-- `handle_conversion_operations()` started in `w` returns `r`. -/
def ConvReturns (E : FloatEnv) (w : World) (r : Double × World) : Prop :=
  ∃ fuel, handle_conversion_operations E fuel w = some r

/-- The two memory slots of `w` and `w'` hold the same values. -/
def SameMemory (w w' : World) : Prop :=
  w'.last_result = w.last_result ∧ w'.prev_result = w.prev_result

/-! ## An environment for running sessions -/

/-- The integer a double stands for when its exponent is zero. -/
def Double.toInt? : Double → Option Int
  | .num (.fin neg m 0) => some (if neg then -(m : Int) else (m : Int))
  | _ => none

/-- An integer operation carried to doubles: exact on operands that hold
integers, with the result converted as `(double)` converts; NaN elsewhere. -/
def liftInt (f : Int → Int → Int) (a b : Double) : Double :=
  match a.toInt?, b.toInt? with
  | some x, some y => Double.ofInt (f x y)
  | _, _ => .NAN

/-- A floating-point environment that covers integers only: integer literals
are read exactly, sums, differences and products of integer operands are the
correctly rounded results, `%.4lf` prints an integer followed by `.0000`; every
other primitive answers NaN (zero for `strtod`).  It serves to run the model
on concrete sessions. -/
def intEnv : FloatEnv where
  add := liftInt (fun x y => x + y)
  sub := liftInt (fun x y => x - y)
  mul := liftInt (fun x y => x * y)
  div := fun _ _ => .NAN
  exp := fun _ => .NAN
  log := fun _ => .NAN
  pow := fun _ _ => .NAN
  sin := fun _ => .NAN
  cos := fun _ => .NAN
  tan := fun _ => .NAN
  hypot := fun _ _ => .NAN
  strtod := fun s =>
    match scanDecimal s with
    | (some v, []) => Num.ofInt v
    | _ => .fin false 0 0
  fmt4 := fun d =>
    match d.toInt? with
    | some n => toString n ++ ".0000"
    | none => "nan"

/-- The state at process start with the given input: nothing printed, both
memory slots zero. -/
def World.start (input : String) : World :=
  { stdin := input.toList, stdout := [], last_result := Double.ofInt 0,
    prev_result := Double.ofInt 0 }

/-! ## Basic facts about the console primitives -/

@[simp] theorem write_stdin (w : World) (cs : List Char) : (w.write cs).stdin = w.stdin := rfl

@[simp] theorem write_last (w : World) (cs : List Char) :
    (w.write cs).last_result = w.last_result := rfl

@[simp] theorem write_prev (w : World) (cs : List Char) :
    (w.write cs).prev_result = w.prev_result := rfl

@[simp] theorem printf_stdin (w : World) (s : String) : (w.printf s).stdin = w.stdin := rfl

@[simp] theorem printf_last (w : World) (s : String) :
    (w.printf s).last_result = w.last_result := rfl

@[simp] theorem printf_prev (w : World) (s : String) :
    (w.printf s).prev_result = w.prev_result := rfl

@[simp] theorem setIn_stdin (w : World) (r : List Char) : (w.setIn r).stdin = r := rfl

@[simp] theorem setIn_last (w : World) (r : List Char) :
    (w.setIn r).last_result = w.last_result := rfl

@[simp] theorem setIn_prev (w : World) (r : List Char) :
    (w.setIn r).prev_result = w.prev_result := rfl

@[simp] theorem print_prompt_stdin (E : FloatEnv) (p : String) (f : Int) (w : World) :
    (print_prompt E p f w).stdin = w.stdin := by
  unfold print_prompt; split <;> rfl

@[simp] theorem print_prompt_last (E : FloatEnv) (p : String) (f : Int) (w : World) :
    (print_prompt E p f w).last_result = w.last_result := by
  unfold print_prompt; split <;> rfl

@[simp] theorem print_prompt_prev (E : FloatEnv) (p : String) (f : Int) (w : World) :
    (print_prompt E p f w).prev_result = w.prev_result := by
  unfold print_prompt; split <;> rfl

@[simp] theorem isnan_num (x : Num) : isnan (.num x) = false := rfl

@[simp] theorem isnan_NAN : isnan .NAN = true := rfl

@[simp] theorem isnan_ofInt (n : Int) : isnan (Double.ofInt n) = false := rfl

theorem isnan_eq_true_iff (d : Double) : isnan d = true ↔ d = .NAN := by
  cases d <;> simp

/-! ## A larger recursion budget changes no result -/

theorem math_single_mono (E : FloatEnv) (g1 g2 : Resolver)
    (h : ∀ p f w r, g1 p f w = some r → g2 p f w = some r) (c : Int) (w : World)
    (r : Double × World) (hr : math_single E g1 c w = some r) :
    math_single E g2 c w = some r := by
  unfold math_single at hr ⊢
  cases ha : g1 "Enter a single number (x)" 1 w with
  | none => simp [ha] at hr
  | some aw =>
    rw [h _ _ _ _ ha]
    rw [ha] at hr
    exact hr

theorem handle_math_mono (E : FloatEnv) (g1 g2 : Resolver)
    (h : ∀ p f w r, g1 p f w = some r → g2 p f w = some r) (w : World)
    (r : Double × World) (hr : handle_math_operations_with E g1 w = some r) :
    handle_math_operations_with E g2 w = some r := by
  unfold handle_math_operations_with at hr ⊢
  cases hm : get_menu_choice 11 (w.printf math_menu) with
  | none => simp [hm] at hr
  | some cw =>
    obtain ⟨c, w1⟩ := cw
    simp only [hm] at hr ⊢
    split_ifs at hr ⊢ with h1 h2 h3 h4
    · exact hr
    · exact math_single_mono E g1 g2 h c w1 r hr
    · exact hr
    · exact hr
    · cases ha : g1 "Enter the first number (a)" 1 w1 with
      | none => simp [ha] at hr
      | some aw =>
        obtain ⟨a, w2⟩ := aw
        rw [h _ _ _ _ ha]
        rw [ha] at hr
        simp only at hr ⊢
        split_ifs at hr ⊢ with h5
        · exact hr
        · cases hb : g1 "Enter the second number (b)" 1 w2 with
          | none => simp [hb] at hr
          | some bw =>
            rw [h _ _ _ _ hb]
            rw [hb] at hr
            exact hr

theorem handle_trig_mono (E : FloatEnv) (g1 g2 : Resolver)
    (h : ∀ p f w r, g1 p f w = some r → g2 p f w = some r) (w : World)
    (r : Double × World) (hr : handle_trig_operations_with E g1 w = some r) :
    handle_trig_operations_with E g2 w = some r := by
  unfold handle_trig_operations_with at hr ⊢
  cases hm : get_menu_choice 6 (w.printf trig_menu) with
  | none => simp [hm] at hr
  | some cw =>
    obtain ⟨c, w1⟩ := cw
    simp only [hm] at hr ⊢
    split_ifs at hr ⊢ with h1 h2
    · exact hr
    · cases ha : g1 "Enter side a" 1 w1 with
      | none => simp [ha] at hr
      | some aw =>
        obtain ⟨a, w2⟩ := aw
        rw [h _ _ _ _ ha]
        rw [ha] at hr
        simp only at hr ⊢
        split_ifs at hr ⊢ with h5
        · exact hr
        · cases hb : g1 "Enter side b" 1 w2 with
          | none => simp [hb] at hr
          | some bw =>
            rw [h _ _ _ _ hb]
            rw [hb] at hr
            exact hr
    · cases ha : g1 "Enter the angle in degrees" 1 w1 with
      | none => simp [ha] at hr
      | some aw =>
        rw [h _ _ _ _ ha]
        rw [ha] at hr
        exact hr

theorem handle_conversion_mono (g1 g2 : Resolver)
    (h : ∀ p f w r, g1 p f w = some r → g2 p f w = some r) (w : World)
    (r : Double × World) (hr : handle_conversion_operations_with g1 w = some r) :
    handle_conversion_operations_with g2 w = some r := by
  unfold handle_conversion_operations_with at hr ⊢
  cases hm : get_menu_choice 7 (w.printf conv_menu) with
  | none => simp [hm] at hr
  | some cw =>
    obtain ⟨c, w1⟩ := cw
    simp only [hm] at hr ⊢
    split_ifs at hr ⊢ with h1 h2
    · exact hr
    · cases ha : g1 "Enter Decimal number (will be truncated to integer)" 1 w1 with
      | none => simp [ha] at hr
      | some aw =>
        rw [h _ _ _ _ ha]
        rw [ha] at hr
        exact hr
    · exact hr

theorem nested_call_mono (E : FloatEnv) (g1 g2 : Resolver)
    (h : ∀ p f w r, g1 p f w = some r → g2 p f w = some r) (k : Int) (w : World)
    (r : Double × World) (hr : nested_call E g1 k w = some r) :
    nested_call E g2 k w = some r := by
  unfold nested_call at hr ⊢
  split at hr
  · exact handle_math_mono E g1 g2 h w r hr
  · exact handle_trig_mono E g1 g2 h w r hr
  · exact handle_conversion_mono g1 g2 h _ r hr
  · exact hr

theorem get_double_input_with_mono (E : FloatEnv) (g1 g2 : Resolver)
    (h : ∀ p f w r, g1 p f w = some r → g2 p f w = some r) (p : String) (f : Int) (w : World)
    (r : Double × World) (hr : get_double_input_with E g1 p f w = some r) :
    get_double_input_with E g2 p f w = some r := by
  unfold get_double_input_with at hr ⊢
  simp only at hr ⊢
  rcases hs : scanf_s 63 (print_prompt E p f w).stdin with ⟨_ | tok, rest⟩
  · rw [hs] at hr
    exact hr
  · rw [hs] at hr
    simp only at hr ⊢
    cases hl : skipLine rest with
    | none => rw [hl] at hr; simp at hr
    | some rest' =>
      rw [hl] at hr
      simp only at hr ⊢
      split_ifs at hr ⊢ with h1 h2 h3 h4
      · exact hr
      · exact hr
      · cases hn : nested_call E g1 (atoi tok) (((print_prompt E p f w).setIn rest').printf
            (nested_banner (atoi tok))) with
        | none => simp [hn] at hr
        | some vw =>
          obtain ⟨v, w2⟩ := vw
          rw [nested_call_mono E g1 g2 h _ _ _ hn]
          rw [hn] at hr
          cases hv : isnan v
          · simp only [hv] at hr ⊢
            exact hr
          · simp only [hv] at hr ⊢
            exact h _ _ _ _ hr
      · exact hr
      · exact hr

theorem get_double_input_succ (E : FloatEnv) (n : Nat) :
    ∀ (p : String) (f : Int) (w : World) (r : Double × World),
      get_double_input E n p f w = some r → get_double_input E (n + 1) p f w = some r := by
  induction n with
  | zero => intro p f w r hr; simp [get_double_input] at hr
  | succ n ih =>
    intro p f w r hr
    exact get_double_input_with_mono E _ _ ih p f w r hr

theorem get_double_input_mono (E : FloatEnv) {n m : Nat} (hnm : n ≤ m) :
    ∀ (p : String) (f : Int) (w : World) (r : Double × World),
      get_double_input E n p f w = some r → get_double_input E m p f w = some r := by
  induction hnm with
  | refl => intro p f w r hr; exact hr
  | step _ ih => intro p f w r hr; exact get_double_input_succ E _ p f w r (ih p f w r hr)

/-! ## Nested operations as operands (C1) -/

theorem get_double_input_nested (E : FloatEnv) (n : Nat) (prompt : String) (flag : Int)
    (w : World) (tok rest rest' : List Char)
    (hflag : flag ≠ 0)
    (hscan : scanf_s 63 w.stdin = (some tok, rest))
    (hline : skipLine rest = some rest')
    (htok : tok = "1".toList ∨ tok = "2".toList ∨ tok = "3".toList) :
    get_double_input E (n + 1) prompt flag w =
      match nested_call E (get_double_input E n) (atoi tok)
          (((print_prompt E prompt flag w).setIn rest').printf (nested_banner (atoi tok))) with
      | none => none
      | some (value, w2) =>
        if !isnan value then
          some (value, w2.printf ("-> Nested Result: " ++ E.fmt4 value ++ " used as operand.\n"))
        else
          get_double_input E n prompt flag (w2.printf
            "\nNested operation failed or cancelled. Please re-enter the required operand.\n") := by
  have hR : ¬ (tok = "R".toList ∨ tok = "r".toList) := by
    rcases htok with h | h | h <;> subst h <;> decide
  have hP : ¬ (tok = "P".toList ∨ tok = "p".toList) := by
    rcases htok with h | h | h <;> subst h <;> decide
  simp only [get_double_input, get_double_input_with, print_prompt_stdin, hscan, hline]
  rw [if_pos hflag, if_neg hR, if_neg hP, if_pos htok]

theorem nested_value (E : FloatEnv) (n : Nat) (prompt : String) (flag : Int)
    (w : World) (tok rest rest' : List Char)
    (hflag : flag ≠ 0)
    (hscan : scanf_s 63 w.stdin = (some tok, rest))
    (hline : skipLine rest = some rest')
    (htok : tok = "1".toList ∨ tok = "2".toList ∨ tok = "3".toList)
    (v : Num) (w2 : World)
    (hcall : nested_call E (get_double_input E n) (atoi tok)
      (((print_prompt E prompt flag w).setIn rest').printf (nested_banner (atoi tok)))
        = some (.num v, w2)) :
    Resolves E prompt flag w
      (.num v, w2.printf ("-> Nested Result: " ++ E.fmt4 (.num v) ++ " used as operand.\n")) := by
  refine ⟨n + 1, ?_⟩
  rw [get_double_input_nested E n prompt flag w tok rest rest' hflag hscan hline htok, hcall]
  simp

theorem nested_retry (E : FloatEnv) (n : Nat) (prompt : String) (flag : Int)
    (w : World) (tok rest rest' : List Char)
    (hflag : flag ≠ 0)
    (hscan : scanf_s 63 w.stdin = (some tok, rest))
    (hline : skipLine rest = some rest')
    (htok : tok = "1".toList ∨ tok = "2".toList ∨ tok = "3".toList)
    (w2 : World)
    (hcall : nested_call E (get_double_input E n) (atoi tok)
      (((print_prompt E prompt flag w).setIn rest').printf (nested_banner (atoi tok)))
        = some (.NAN, w2))
    (r : Double × World) :
    Resolves E prompt flag w r ↔
      Resolves E prompt flag (w2.printf
        "\nNested operation failed or cancelled. Please re-enter the required operand.\n") r := by
  have key : ∀ m, n ≤ m → get_double_input E (m + 1) prompt flag w =
      get_double_input E m prompt flag (w2.printf
        "\nNested operation failed or cancelled. Please re-enter the required operand.\n") := by
    intro m hm
    rw [get_double_input_nested E m prompt flag w tok rest rest' hflag hscan hline htok,
      nested_call_mono E _ _ (get_double_input_mono E hm) _ _ _ hcall]
    simp
  constructor
  · rintro ⟨k, hk⟩
    refine ⟨max n k, ?_⟩
    rw [← key _ (le_max_left n k)]
    exact get_double_input_mono E (by omega) _ _ _ _ hk
  · rintro ⟨m, hm⟩
    refine ⟨max n m + 1, ?_⟩
    rw [key _ (le_max_left n m)]
    exact get_double_input_mono E (le_max_right n m) _ _ _ _ hm

/-- C1: with symbolic operands allowed and the token `1`, `2` or `3` read,
`get_double_input` calls the Math, Trig or Conversion handler on the input
left after the token's line.  When the handler returns a number, that number
is the result of `get_double_input`.  When the handler returns the no-value
marker, `get_double_input` returns exactly what a fresh call with the same
prompt and flag returns on the state the handler left (after the retry notice
is printed): the failure itself is never the result. -/
theorem C1_nested_operand (E : FloatEnv) (prompt : String) (flag : Int) (w : World)
    (tok rest rest' : List Char)
    (hflag : flag ≠ 0)
    (hscan : scanf_s 63 w.stdin = (some tok, rest))
    (hline : skipLine rest = some rest') :
    (tok = "1".toList →
      (∀ v w2,
        MathReturns E (((print_prompt E prompt flag w).setIn rest').printf
          "\n--- Nested Operation (Math selected) ---\n") (.num v, w2) →
        Resolves E prompt flag w
          (.num v, w2.printf ("-> Nested Result: " ++ E.fmt4 (.num v) ++ " used as operand.\n"))) ∧
      (∀ w2,
        MathReturns E (((print_prompt E prompt flag w).setIn rest').printf
          "\n--- Nested Operation (Math selected) ---\n") (.NAN, w2) →
        ∀ r, Resolves E prompt flag w r ↔
          Resolves E prompt flag (w2.printf
            "\nNested operation failed or cancelled. Please re-enter the required operand.\n") r)) ∧
    (tok = "2".toList →
      (∀ v w2,
        TrigReturns E (((print_prompt E prompt flag w).setIn rest').printf
          "\n--- Nested Operation (Trig selected) ---\n") (.num v, w2) →
        Resolves E prompt flag w
          (.num v, w2.printf ("-> Nested Result: " ++ E.fmt4 (.num v) ++ " used as operand.\n"))) ∧
      (∀ w2,
        TrigReturns E (((print_prompt E prompt flag w).setIn rest').printf
          "\n--- Nested Operation (Trig selected) ---\n") (.NAN, w2) →
        ∀ r, Resolves E prompt flag w r ↔
          Resolves E prompt flag (w2.printf
            "\nNested operation failed or cancelled. Please re-enter the required operand.\n") r)) ∧
    (tok = "3".toList →
      (∀ v w2,
        ConvReturns E ((((print_prompt E prompt flag w).setIn rest').printf
          "\n--- Nested Operation (Conversion selected) ---\n").printf
          "Warning: Number conversions are integer-based and may lose precision when used as floating-point operands.\n")
          (.num v, w2) →
        Resolves E prompt flag w
          (.num v, w2.printf ("-> Nested Result: " ++ E.fmt4 (.num v) ++ " used as operand.\n"))) ∧
      (∀ w2,
        ConvReturns E ((((print_prompt E prompt flag w).setIn rest').printf
          "\n--- Nested Operation (Conversion selected) ---\n").printf
          "Warning: Number conversions are integer-based and may lose precision when used as floating-point operands.\n")
          (.NAN, w2) →
        ∀ r, Resolves E prompt flag w r ↔
          Resolves E prompt flag (w2.printf
            "\nNested operation failed or cancelled. Please re-enter the required operand.\n") r)) := by
  refine ⟨fun htok => ⟨?_, ?_⟩, fun htok => ⟨?_, ?_⟩, fun htok => ⟨?_, ?_⟩⟩
  · rintro v w2 ⟨n, hn⟩
    refine nested_value E n prompt flag w tok rest rest' hflag hscan hline (Or.inl htok) v w2 ?_
    subst htok
    exact hn
  · rintro w2 ⟨n, hn⟩ r
    refine nested_retry E n prompt flag w tok rest rest' hflag hscan hline (Or.inl htok) w2 ?_ r
    subst htok
    exact hn
  · rintro v w2 ⟨n, hn⟩
    refine nested_value E n prompt flag w tok rest rest' hflag hscan hline
      (Or.inr (Or.inl htok)) v w2 ?_
    subst htok
    exact hn
  · rintro w2 ⟨n, hn⟩ r
    refine nested_retry E n prompt flag w tok rest rest' hflag hscan hline
      (Or.inr (Or.inl htok)) w2 ?_ r
    subst htok
    exact hn
  · rintro v w2 ⟨n, hn⟩
    refine nested_value E n prompt flag w tok rest rest' hflag hscan hline
      (Or.inr (Or.inr htok)) v w2 ?_
    subst htok
    exact hn
  · rintro w2 ⟨n, hn⟩ r
    refine nested_retry E n prompt flag w tok rest rest' hflag hscan hline
      (Or.inr (Or.inr htok)) w2 ?_ r
    subst htok
    exact hn

/-- Witness for C1: from an empty memory, the session `1`, `10`, `5` (nested
Math, factorial of 5) resolves the operand to 120; in the session `1`, `11`,
`7` the nested Math menu is left with Back and the operand is then read
afresh as 7. -/
theorem C1_nested_operand_witness :
    (∃ w', Resolves intEnv "Enter the first number (a)" 1 (World.start "1\n10\n5\n")
      (Double.ofInt 120, w')) ∧
    (∃ w', Resolves intEnv "Enter the first number (a)" 1 (World.start "1\n11\n7\n")
      (Double.ofInt 7, w')) := by
  constructor
  · have h := ((C1_nested_operand intEnv "Enter the first number (a)" 1
      (World.start "1\n10\n5\n") "1".toList "\n10\n5\n".toList "10\n5\n".toList
      (by decide) (by decide) (by decide)).1 rfl).1
    exact ⟨_, h (Num.ofInt 120) _ ⟨1, rfl⟩⟩
  · have h := ((C1_nested_operand intEnv "Enter the first number (a)" 1
      (World.start "1\n11\n7\n") "1".toList "\n11\n7\n".toList "11\n7\n".toList
      (by decide) (by decide) (by decide)).1 rfl).2
    exact ⟨_, (h _ ⟨1, rfl⟩ _).2 ⟨1, rfl⟩⟩

/-! ## Memory update (C2) -/

/-- C2: `update_results(v)` with a number `v` moves `last_result` into
`prev_result` and stores `v` in `last_result`; with the no-value marker it
changes nothing; from memory (0, 0) the results 5 and then 12 give (5, 0)
and then (12, 5).  Input and output are untouched throughout. -/
theorem C2_update_results (w : World) (v : Double) :
    (isnan v = false →
      update_results v w =
        { stdin := w.stdin, stdout := w.stdout, last_result := v,
          prev_result := w.last_result }) ∧
    (isnan v = true → update_results v w = w) ∧
    (∀ input : String,
      let w1 := update_results (Double.ofInt 5) (World.start input)
      let w2 := update_results (Double.ofInt 12) w1
      (w1.last_result, w1.prev_result) = (Double.ofInt 5, Double.ofInt 0) ∧
      (w2.last_result, w2.prev_result) = (Double.ofInt 12, Double.ofInt 5)) := by
  refine ⟨fun h => ?_, fun h => ?_, fun input => ⟨rfl, rfl⟩⟩
  · simp [update_results, h]
  · simp [update_results, h]

/-! ## Symbolic memory operands (C3) -/

/-- C3 as the code has it: with symbolic operands allowed, a token `R` or `r`
makes `get_double_input` return the current `last_result`, and a token `P` or
`p` the current `prev_result`.  The state returned is the state after the token
and the rest of its line were read, plus the one confirmation line printed: no
handler ran (no menu was printed), whatever followed the token on its own line
was discarded with it, and nothing after that line was read; this holds already
with the smallest recursion budget. -/
theorem C3_symbolic_memory (E : FloatEnv) (fuel : Nat) (prompt : String) (flag : Int)
    (w : World) (tok rest rest' : List Char)
    (hflag : flag ≠ 0)
    (hscan : scanf_s 63 w.stdin = (some tok, rest))
    (hline : skipLine rest = some rest') :
    ((tok = "R".toList ∨ tok = "r".toList) →
      get_double_input E (fuel + 1) prompt flag w =
        some (w.last_result,
          ((print_prompt E prompt flag w).setIn rest').printf
            ("-> Using Last Result (R): " ++ E.fmt4 w.last_result ++ "\n"))) ∧
    ((tok = "P".toList ∨ tok = "p".toList) →
      get_double_input E (fuel + 1) prompt flag w =
        some (w.prev_result,
          ((print_prompt E prompt flag w).setIn rest').printf
            ("-> Using Previous Result (P): " ++ E.fmt4 w.prev_result ++ "\n"))) := by
  constructor
  · intro htok
    simp only [get_double_input, get_double_input_with, print_prompt_stdin, hscan, hline]
    rw [if_pos hflag, if_pos htok]
    simp
  · intro htok
    have hne : ¬ (tok = "R".toList ∨ tok = "r".toList) := by
      rcases htok with h | h <;> subst h <;> decide
    simp only [get_double_input, get_double_input_with, print_prompt_stdin, hscan, hline]
    rw [if_pos hflag, if_neg hne, if_pos htok]
    simp

/-- Witness for C3 as amended: with memory (0, 0) and the input line `r 9`,
the operand is the last result 0 and the next line `8` is still unread. -/
theorem C3_symbolic_memory_witness :
    (get_double_input intEnv 1 "Enter the first number (a)" 1 (World.start "r 9\n8\n")).map
      (fun r => (r.1, r.2.stdin)) = some (Double.ofInt 0, "8\n".toList) := by
  rw [(C3_symbolic_memory intEnv 0 "Enter the first number (a)" 1 (World.start "r 9\n8\n")
    "r".toList " 9\n8\n".toList "8\n".toList (by decide) (by decide) (by decide)).1
    (Or.inr rfl)]
  rfl

/-- Counterexample to C3 as stated (no further token is consumed): on the input
`r 9` followed by the line `8`, reading the token `r` leaves ` 9` and the line
`8` unread, so the next token is `9`; yet `get_double_input` returns the last
result with only the line `8` unread, so the next token is `8`: the token `9`
was consumed.  In an addition whose operands are entered as `r 9` and `8` the
second operand is therefore 8, and the sum of the last result 0 and it is 8. -/
theorem C3_counterexample :
    scanf_s 63 (World.start "r 9\n8\n").stdin = (some "r".toList, " 9\n8\n".toList) ∧
    (scanf_s 63 " 9\n8\n".toList).1 = some "9".toList ∧
    (∃ w', get_double_input intEnv 1 "Enter the first number (a)" 1 (World.start "r 9\n8\n")
        = some (Double.ofInt 0, w') ∧
      w'.stdin = "8\n".toList ∧ (scanf_s 63 w'.stdin).1 = some "8".toList) ∧
    (∃ w', handle_math_operations intEnv 1 (World.start "1\nr 9\n8\n")
        = some (Double.ofInt 8, w') ∧ w'.stdin = []) := by
  refine ⟨by decide, by decide, ⟨_, rfl, rfl, by decide⟩, ⟨_, rfl, rfl⟩⟩

/-! ## Handlers and resolver leave the memory alone (C4) -/

theorem SameMemory.rfl' (w : World) : SameMemory w w := ⟨rfl, rfl⟩

theorem SameMemory.trans' {a b c : World} (h1 : SameMemory a b) (h2 : SameMemory b c) :
    SameMemory a c := ⟨h2.1.trans h1.1, h2.2.trans h1.2⟩

theorem printf_mem (w : World) (s : String) : SameMemory w (w.printf s) := ⟨rfl, rfl⟩

theorem write_mem (w : World) (cs : List Char) : SameMemory w (w.write cs) := ⟨rfl, rfl⟩

theorem setIn_mem (w : World) (r : List Char) : SameMemory w (w.setIn r) := ⟨rfl, rfl⟩

theorem print_prompt_mem (E : FloatEnv) (p : String) (f : Int) (w : World) :
    SameMemory w (print_prompt E p f w) := ⟨by simp, by simp⟩

theorem divide_mem (E : FloatEnv) (a b : Double) (w : World) :
    SameMemory w (divide E a b w).2 := by
  unfold divide; split <;> exact ⟨rfl, rfl⟩

theorem logarithm_mem (E : FloatEnv) (x : Double) (w : World) :
    SameMemory w (logarithm E x w).2 := by
  unfold logarithm; split <;> exact ⟨rfl, rfl⟩

theorem factorial_mem (n : Int) (w : World) : SameMemory w (factorial n w).2 := by
  unfold factorial; split_ifs <;> exact ⟨rfl, rfl⟩

theorem factorial_stdin (n : Int) (w : World) : (factorial n w).2.stdin = w.stdin := by
  unfold factorial; split_ifs <;> rfl

theorem tangent_deg_mem (E : FloatEnv) (deg : Double) (w : World) :
    SameMemory w (tangent_deg E deg w).2 := by
  unfold tangent_deg; simp only; split <;> exact ⟨rfl, rfl⟩

theorem cotangent_deg_mem (E : FloatEnv) (deg : Double) (w : World) :
    SameMemory w (cotangent_deg E deg w).2 := by
  unfold cotangent_deg
  have h := tangent_deg_mem E deg w
  generalize tangent_deg E deg w = pr at h ⊢
  obtain ⟨t, w1⟩ := pr
  simp only at h ⊢
  split_ifs <;> exact h

theorem remainder_op_mem (a b : Int) (w : World) (r : Int) (w' : World)
    (h : remainder_op a b w = some (r, w')) : SameMemory w w' := by
  unfold remainder_op at h
  split_ifs at h <;> simp at h <;> obtain ⟨-, rfl⟩ := h <;> exact ⟨rfl, rfl⟩

theorem dec_to_bin_mem (dec : Int) (w : World) : SameMemory w (dec_to_bin dec w) := by
  unfold dec_to_bin; simp only; split_ifs <;> exact ⟨rfl, rfl⟩

theorem bin_to_dec_loop_mem (l : List Char) :
    ∀ (dec base : Int) (w : World), SameMemory w (bin_to_dec_loop l dec base w).2 := by
  induction l with
  | nil => intro dec base w; exact ⟨rfl, rfl⟩
  | cons c cs ih =>
    intro dec base w
    unfold bin_to_dec_loop
    split_ifs
    · exact ih _ _ _
    · exact ⟨rfl, rfl⟩
    · exact ih _ _ _

theorem bin_to_dec_mem (s : List Char) (w : World) : SameMemory w (bin_to_dec s w).2 :=
  bin_to_dec_loop_mem _ _ _ _

theorem dec_to_hex_mem (dec : Int) (w : World) : SameMemory w (dec_to_hex dec w) := ⟨rfl, rfl⟩

theorem hex_to_dec_mem (s : List Char) (w : World) : SameMemory w (hex_to_dec s w).2 := by
  unfold hex_to_dec; split <;> exact ⟨rfl, rfl⟩

theorem hex_to_bin_mem (s : List Char) (w : World) : SameMemory w (hex_to_bin s w) := by
  unfold hex_to_bin
  have h := hex_to_dec_mem s w
  generalize hex_to_dec s w = pr at h ⊢
  obtain ⟨d, w1⟩ := pr
  simp only at h ⊢
  split_ifs
  · exact h.trans' ((printf_mem _ _).trans' (dec_to_bin_mem _ _))
  · exact h

theorem bin_to_hex_mem (s : List Char) (w : World) : SameMemory w (bin_to_hex s w) := by
  unfold bin_to_hex
  have h := bin_to_dec_mem s w
  generalize bin_to_dec s w = pr at h ⊢
  obtain ⟨d, w1⟩ := pr
  simp only at h ⊢
  split_ifs
  · exact h.trans' ((printf_mem _ _).trans' (dec_to_hex_mem _ _))
  · exact h

theorem get_menu_choice_mem (m : Int) (w : World) (c : Int) (w' : World)
    (h : get_menu_choice m w = some (c, w')) : SameMemory w w' := by
  unfold get_menu_choice at h
  rcases hs : scanf_d w.stdin with ⟨_ | v, rest⟩ <;> rw [hs] at h <;> simp only at h <;>
    cases hl : skipLine rest <;> rw [hl] at h <;> simp only at h
  · simp at h
  · simp at h; obtain ⟨-, rfl⟩ := h; exact ⟨rfl, rfl⟩
  · simp at h
  · split_ifs at h <;> simp at h <;> obtain ⟨-, rfl⟩ := h <;> exact ⟨rfl, rfl⟩

theorem math_binary_mem (E : FloatEnv) (c : Int) (a b : Double) (w : World) :
    SameMemory w (math_binary E c a b w).2 := by
  unfold math_binary
  split
  · exact ⟨rfl, rfl⟩
  · exact ⟨rfl, rfl⟩
  · exact ⟨rfl, rfl⟩
  · have h := divide_mem E a b w
    generalize divide E a b w = pr at h ⊢
    obtain ⟨d, w1⟩ := pr
    simp only at h ⊢
    split_ifs <;> exact h
  · exact ⟨rfl, rfl⟩
  · exact ⟨rfl, rfl⟩

theorem trig_single_mem (E : FloatEnv) (c : Int) (a : Double) (w : World) :
    SameMemory w (trig_single E c a w).2 := by
  unfold trig_single
  split
  · exact ⟨rfl, rfl⟩
  · exact ⟨rfl, rfl⟩
  · have h := tangent_deg_mem E a w
    generalize tangent_deg E a w = pr at h ⊢
    obtain ⟨d, w1⟩ := pr
    simp only at h ⊢
    split_ifs <;> exact h
  · have h := cotangent_deg_mem E a w
    generalize cotangent_deg E a w = pr at h ⊢
    obtain ⟨d, w1⟩ := pr
    simp only at h ⊢
    split_ifs <;> exact h
  · exact ⟨rfl, rfl⟩

theorem math_factorial_mem (w : World) (r : Double) (w' : World)
    (h : math_factorial w = some (r, w')) : SameMemory w w' := by
  unfold math_factorial at h
  simp only [printf_stdin] at h
  rcases hs : scanf_d w.stdin with ⟨_ | v, rest⟩ <;> rw [hs] at h <;> simp only at h <;>
    cases hl : skipLine rest <;> rw [hl] at h <;> simp only at h
  · simp at h
  · simp at h; obtain ⟨-, rfl⟩ := h; exact ⟨rfl, rfl⟩
  · simp at h
  · rename_i rest'
    have hf := factorial_mem v ((w.printf "Enter a non-negative integer (n): ").setIn rest')
    generalize factorial v ((w.printf "Enter a non-negative integer (n): ").setIn rest') = pr
      at hf h
    obtain ⟨res, w1⟩ := pr
    simp only at hf h
    split_ifs at h <;> simp at h <;> obtain ⟨-, rfl⟩ := h
    · exact ⟨hf.1, hf.2⟩
    · exact ⟨hf.1, hf.2⟩

theorem math_remainder_mem (w : World) (r : Double) (w' : World)
    (h : math_remainder w = some (r, w')) : SameMemory w w' := by
  unfold math_remainder at h
  simp only [printf_stdin, setIn_stdin] at h
  rcases hs : scanf_lld w.stdin with ⟨_ | a, rest⟩ <;> rw [hs] at h <;> simp only at h
  · cases hl : skipLine rest <;> rw [hl] at h <;> simp at h
    obtain ⟨-, rfl⟩ := h; exact ⟨rfl, rfl⟩
  · rcases hs2 : scanf_lld rest with ⟨_ | b, rest2⟩ <;> rw [hs2] at h <;> simp only at h <;>
      cases hl : skipLine rest2 <;> rw [hl] at h <;> simp only at h
    · simp at h
    · simp at h; obtain ⟨-, rfl⟩ := h; exact ⟨rfl, rfl⟩
    · simp at h
    · rename_i rest'
      cases hrem : remainder_op a b
        (((((w.printf
          "Enter two integers (a % b) - Note: R/P/Nested Op is NOT available for integer-only input.\n").printf
          "Enter the first integer (a): ").setIn rest).printf
          "Enter the second integer (b): ").setIn rest') with
      | none => rw [hrem] at h; simp at h
      | some rw1 =>
        obtain ⟨res, w1⟩ := rw1
        rw [hrem] at h
        have hm := remainder_op_mem _ _ _ _ _ hrem
        simp only at h
        split_ifs at h <;> simp at h <;> obtain ⟨-, rfl⟩ := h
        · exact ⟨hm.1, hm.2⟩
        · exact ⟨hm.1, hm.2⟩

theorem math_single_mem (E : FloatEnv) (gdi : Resolver)
    (hg : ∀ p f w r w', gdi p f w = some (r, w') → SameMemory w w')
    (c : Int) (w : World) (r : Double) (w' : World)
    (h : math_single E gdi c w = some (r, w')) : SameMemory w w' := by
  unfold math_single at h
  cases ha : gdi "Enter a single number (x)" 1 w with
  | none => rw [ha] at h; simp at h
  | some aw =>
    obtain ⟨a, w1⟩ := aw
    rw [ha] at h
    have h1 := hg _ _ _ _ _ ha
    simp only at h
    split_ifs at h
    · simp at h; obtain ⟨-, rfl⟩ := h; exact h1
    · split at h
      · simp at h; obtain ⟨-, rfl⟩ := h; exact h1.trans' (printf_mem _ _)
      · have hl := logarithm_mem E a w1
        generalize logarithm E a w1 = pr at hl h
        obtain ⟨d, w2⟩ := pr
        simp at h; obtain ⟨-, rfl⟩ := h
        exact h1.trans' (hl.trans' (printf_mem _ _))
      · simp at h; obtain ⟨-, rfl⟩ := h; exact h1.trans' (printf_mem _ _)
      · simp at h; obtain ⟨-, rfl⟩ := h; exact h1

theorem conv_string_mem (c : Int) (w : World) (r : Double) (w' : World)
    (h : conv_string c w = some (r, w')) : SameMemory w w' := by
  unfold conv_string at h
  simp only [printf_stdin] at h
  rcases hs : scanf_s 63 w.stdin with ⟨_ | tok, rest⟩ <;> rw [hs] at h <;> simp only at h <;>
    cases hl : skipLine rest <;> rw [hl] at h <;> simp only at h
  · simp at h
  · simp at h; obtain ⟨-, rfl⟩ := h; exact ⟨rfl, rfl⟩
  · simp at h
  · rename_i rest'
    split at h
    · have hb := bin_to_dec_mem tok ((w.printf "Enter the number string: ").setIn rest')
      generalize bin_to_dec tok ((w.printf "Enter the number string: ").setIn rest') = pr at hb h
      obtain ⟨d, w1⟩ := pr
      simp only at hb h
      split_ifs at h <;> simp at h <;> obtain ⟨-, rfl⟩ := h
      · exact ⟨hb.1, hb.2⟩
      · exact ⟨hb.1, hb.2⟩
    · have hb := hex_to_dec_mem tok ((w.printf "Enter the number string: ").setIn rest')
      generalize hex_to_dec tok ((w.printf "Enter the number string: ").setIn rest') = pr at hb h
      obtain ⟨d, w1⟩ := pr
      simp only at hb h
      split_ifs at h <;> simp at h <;> obtain ⟨-, rfl⟩ := h
      · exact ⟨hb.1, hb.2⟩
      · exact ⟨hb.1, hb.2⟩
    · simp at h; obtain ⟨-, rfl⟩ := h
      have hb := hex_to_bin_mem tok ((w.printf "Enter the number string: ").setIn rest')
      exact ⟨hb.1, hb.2⟩
    · simp at h; obtain ⟨-, rfl⟩ := h
      have hb := bin_to_hex_mem tok ((w.printf "Enter the number string: ").setIn rest')
      exact ⟨hb.1, hb.2⟩
    · simp at h; obtain ⟨-, rfl⟩ := h; exact ⟨rfl, rfl⟩

theorem handle_math_mem (E : FloatEnv) (gdi : Resolver)
    (hg : ∀ p f w r w', gdi p f w = some (r, w') → SameMemory w w')
    (w : World) (r : Double) (w' : World)
    (h : handle_math_operations_with E gdi w = some (r, w')) : SameMemory w w' := by
  unfold handle_math_operations_with at h
  cases hm : get_menu_choice 11 (w.printf math_menu) with
  | none => rw [hm] at h; simp at h
  | some cw =>
    obtain ⟨c, w1⟩ := cw
    rw [hm] at h
    have h0 : SameMemory w w1 := (printf_mem _ _).trans' (get_menu_choice_mem _ _ _ _ hm)
    simp only at h
    split_ifs at h
    · simp at h; obtain ⟨-, rfl⟩ := h; exact h0
    · exact h0.trans' (math_single_mem E gdi hg _ _ _ _ h)
    · exact h0.trans' (math_factorial_mem _ _ _ h)
    · exact h0.trans' (math_remainder_mem _ _ _ h)
    · cases ha : gdi "Enter the first number (a)" 1 w1 with
      | none => rw [ha] at h; simp at h
      | some aw =>
        obtain ⟨a, w2⟩ := aw
        rw [ha] at h
        have h1 := h0.trans' (hg _ _ _ _ _ ha)
        simp only at h
        split_ifs at h
        · simp at h; obtain ⟨-, rfl⟩ := h; exact h1
        · cases hb : gdi "Enter the second number (b)" 1 w2 with
          | none => rw [hb] at h; simp at h
          | some bw =>
            obtain ⟨b, w3⟩ := bw
            rw [hb] at h
            have h2 := h1.trans' (hg _ _ _ _ _ hb)
            simp only at h
            split_ifs at h
            · simp at h; obtain ⟨-, rfl⟩ := h; exact h2
            · have hbin := math_binary_mem E c a b w3
              simp at h
              rw [h] at hbin
              exact h2.trans' hbin

theorem handle_trig_mem (E : FloatEnv) (gdi : Resolver)
    (hg : ∀ p f w r w', gdi p f w = some (r, w') → SameMemory w w')
    (w : World) (r : Double) (w' : World)
    (h : handle_trig_operations_with E gdi w = some (r, w')) : SameMemory w w' := by
  unfold handle_trig_operations_with at h
  cases hm : get_menu_choice 6 (w.printf trig_menu) with
  | none => rw [hm] at h; simp at h
  | some cw =>
    obtain ⟨c, w1⟩ := cw
    rw [hm] at h
    have h0 : SameMemory w w1 := (printf_mem _ _).trans' (get_menu_choice_mem _ _ _ _ hm)
    simp only at h
    split_ifs at h
    · simp at h; obtain ⟨-, rfl⟩ := h; exact h0
    · cases ha : gdi "Enter side a" 1 w1 with
      | none => rw [ha] at h; simp at h
      | some aw =>
        obtain ⟨a, w2⟩ := aw
        rw [ha] at h
        have h1 := h0.trans' (hg _ _ _ _ _ ha)
        simp only at h
        split_ifs at h
        · simp at h; obtain ⟨-, rfl⟩ := h; exact h1
        · cases hb : gdi "Enter side b" 1 w2 with
          | none => rw [hb] at h; simp at h
          | some bw =>
            obtain ⟨b, w3⟩ := bw
            rw [hb] at h
            have h2 := h1.trans' (hg _ _ _ _ _ hb)
            simp only at h
            split_ifs at h
            · simp at h; obtain ⟨-, rfl⟩ := h; exact h2
            · simp at h; obtain ⟨-, rfl⟩ := h; exact h2.trans' (printf_mem _ _)
    · cases ha : gdi "Enter the angle in degrees" 1 w1 with
      | none => rw [ha] at h; simp at h
      | some aw =>
        obtain ⟨a, w2⟩ := aw
        rw [ha] at h
        have h1 := h0.trans' (hg _ _ _ _ _ ha)
        simp only at h
        split_ifs at h
        · simp at h; obtain ⟨-, rfl⟩ := h; exact h1
        · have ht := trig_single_mem E c a w2
          simp at h
          rw [h] at ht
          exact h1.trans' ht

theorem handle_conversion_mem (gdi : Resolver)
    (hg : ∀ p f w r w', gdi p f w = some (r, w') → SameMemory w w')
    (w : World) (r : Double) (w' : World)
    (h : handle_conversion_operations_with gdi w = some (r, w')) : SameMemory w w' := by
  unfold handle_conversion_operations_with at h
  cases hm : get_menu_choice 7 (w.printf conv_menu) with
  | none => rw [hm] at h; simp at h
  | some cw =>
    obtain ⟨c, w1⟩ := cw
    rw [hm] at h
    have h0 : SameMemory w w1 := (printf_mem _ _).trans' (get_menu_choice_mem _ _ _ _ hm)
    simp only at h
    split_ifs at h
    · simp at h; obtain ⟨-, rfl⟩ := h; exact h0
    · cases ha : gdi "Enter Decimal number (will be truncated to integer)" 1 w1 with
      | none => rw [ha] at h; simp at h
      | some aw =>
        obtain ⟨a, w2⟩ := aw
        rw [ha] at h
        have h1 := h0.trans' (hg _ _ _ _ _ ha)
        simp only at h
        split_ifs at h
        · simp at h; obtain ⟨-, rfl⟩ := h; exact h1
        · simp at h; obtain ⟨-, rfl⟩ := h
          split
          · exact h1.trans' (dec_to_bin_mem _ _)
          · exact h1.trans' (dec_to_hex_mem _ _)
          · exact h1
    · exact h0.trans' (conv_string_mem _ _ _ _ h)

theorem nested_call_mem (E : FloatEnv) (gdi : Resolver)
    (hg : ∀ p f w r w', gdi p f w = some (r, w') → SameMemory w w')
    (k : Int) (w : World) (r : Double) (w' : World)
    (h : nested_call E gdi k w = some (r, w')) : SameMemory w w' := by
  unfold nested_call at h
  split at h
  · exact handle_math_mem E gdi hg _ _ _ h
  · exact handle_trig_mem E gdi hg _ _ _ h
  · exact (printf_mem _ _).trans' (handle_conversion_mem gdi hg _ _ _ h)
  · simp at h; obtain ⟨-, rfl⟩ := h; exact ⟨rfl, rfl⟩

theorem parse_operand_mem (E : FloatEnv) (tok : List Char) (w : World) :
    SameMemory w (parse_operand E tok w).2 := by
  unfold parse_operand; split <;> exact ⟨rfl, rfl⟩

theorem get_double_input_with_mem (E : FloatEnv) (gdi : Resolver)
    (hg : ∀ p f w r w', gdi p f w = some (r, w') → SameMemory w w')
    (p : String) (f : Int) (w : World) (r : Double) (w' : World)
    (h : get_double_input_with E gdi p f w = some (r, w')) : SameMemory w w' := by
  unfold get_double_input_with at h
  simp only at h
  have h0 := print_prompt_mem E p f w
  rcases hs : scanf_s 63 (print_prompt E p f w).stdin with ⟨_ | tok, rest⟩ <;> rw [hs] at h <;>
    simp only at h <;> cases hl : skipLine rest <;> rw [hl] at h <;> simp only at h
  · simp at h
  · simp at h; obtain ⟨-, rfl⟩ := h; exact h0.trans' ⟨rfl, rfl⟩
  · simp at h
  · rename_i rest'
    have hp := parse_operand_mem E tok ((print_prompt E p f w).setIn rest')
    split_ifs at h
    · simp at h; obtain ⟨-, rfl⟩ := h; exact h0.trans' ⟨rfl, rfl⟩
    · simp at h; obtain ⟨-, rfl⟩ := h; exact h0.trans' ⟨rfl, rfl⟩
    · cases hn : nested_call E gdi (atoi tok) (((print_prompt E p f w).setIn rest').printf
          (nested_banner (atoi tok))) with
      | none => rw [hn] at h; simp at h
      | some vw =>
        obtain ⟨v, w2⟩ := vw
        rw [hn] at h
        have h2 := nested_call_mem E gdi hg _ _ _ _ hn
        have h1 : SameMemory w w2 := ⟨h2.1.trans h0.1, h2.2.trans h0.2⟩
        cases hv : isnan v
        · simp [hv] at h; obtain ⟨-, rfl⟩ := h; exact h1.trans' (printf_mem _ _)
        · simp [hv] at h
          exact h1.trans' ((printf_mem _ _).trans' (hg _ _ _ _ _ h))
    · simp at h; rw [h] at hp; exact ⟨hp.1.trans h0.1, hp.2.trans h0.2⟩
    · simp at h; rw [h] at hp; exact ⟨hp.1.trans h0.1, hp.2.trans h0.2⟩

theorem get_double_input_mem (E : FloatEnv) (n : Nat) :
    ∀ (p : String) (f : Int) (w : World) (r : Double) (w' : World),
      get_double_input E n p f w = some (r, w') → SameMemory w w' := by
  induction n with
  | zero => intro p f w r w' h; simp [get_double_input] at h
  | succ n ih =>
    intro p f w r w' h
    exact get_double_input_with_mem E _ ih p f w r w' h

/-- C4: a call of `get_double_input`, `handle_math_operations`,
`handle_trig_operations` or `handle_conversion_operations` that returns,
whatever was nested inside it and to whatever depth, returns with
`last_result` and `prev_result` holding the values they held at the call. -/
theorem C4_memory_frame (E : FloatEnv) (fuel : Nat) (w w' : World) (r : Double) :
    (∀ prompt flag, get_double_input E fuel prompt flag w = some (r, w') →
      w'.last_result = w.last_result ∧ w'.prev_result = w.prev_result) ∧
    (handle_math_operations E fuel w = some (r, w') →
      w'.last_result = w.last_result ∧ w'.prev_result = w.prev_result) ∧
    (handle_trig_operations E fuel w = some (r, w') →
      w'.last_result = w.last_result ∧ w'.prev_result = w.prev_result) ∧
    (handle_conversion_operations E fuel w = some (r, w') →
      w'.last_result = w.last_result ∧ w'.prev_result = w.prev_result) :=
  ⟨fun p f h => get_double_input_mem E fuel p f w r w' h,
   fun h => handle_math_mem E _ (get_double_input_mem E fuel) w r w' h,
   fun h => handle_trig_mem E _ (get_double_input_mem E fuel) w r w' h,
   fun h => handle_conversion_mem _ (get_double_input_mem E fuel) w r w' h⟩

/-- Witness for C4: with memory (12, 5), the operand session `1`, `10`, `5`
(nested Math, factorial of 5) returns and the memory is still (12, 5). -/
theorem C4_memory_frame_witness :
    ∃ r w', get_double_input intEnv 2 "Enter the first number (a)" 1
        (update_results (Double.ofInt 12) (update_results (Double.ofInt 5)
          (World.start "1\n10\n5\n"))) = some (r, w') ∧
      w'.last_result = Double.ofInt 12 ∧ w'.prev_result = Double.ofInt 5 :=
  ⟨_, _, rfl, (C4_memory_frame intEnv 2
    (update_results (Double.ofInt 12) (update_results (Double.ofInt 5)
      (World.start "1\n10\n5\n"))) _ _).1 "Enter the first number (a)" 1 rfl⟩

/-! ## Two-operand operations ask for the first operand first (C6) -/

/-- C6: in `handle_math_operations` with choice 1, 2, 3, 4 or 9, and in
`handle_trig_operations` with choice 5, the first operand is requested from
`get_double_input` with symbolic operands allowed (flag 1) in the state left by
the menu choice.  If that request returns the no-value marker, the handler
returns the no-value marker in exactly the state the request left: nothing
more is read or printed.  If it returns a number, the second operand is
requested, again with flag 1, in the state the first request left, and the
handler's result is decided by that second request. -/
theorem C6_first_operand_first (E : FloatEnv) (fuel : Nat) (w : World) :
    (∀ c w1, get_menu_choice 11 (w.printf math_menu) = some (c, w1) →
      (c = 1 ∨ c = 2 ∨ c = 3 ∨ c = 4 ∨ c = 9) →
      (∀ w2, get_double_input E fuel "Enter the first number (a)" 1 w1 = some (.NAN, w2) →
        handle_math_operations E fuel w = some (.NAN, w2)) ∧
      (∀ a w2, get_double_input E fuel "Enter the first number (a)" 1 w1 = some (.num a, w2) →
        handle_math_operations E fuel w =
          match get_double_input E fuel "Enter the second number (b)" 1 w2 with
          | none => none
          | some (.NAN, w3) => some (.NAN, w3)
          | some (.num b, w3) => some (math_binary E c (.num a) (.num b) w3))) ∧
    (∀ w1, get_menu_choice 6 (w.printf trig_menu) = some (5, w1) →
      (∀ w2, get_double_input E fuel "Enter side a" 1 w1 = some (.NAN, w2) →
        handle_trig_operations E fuel w = some (.NAN, w2)) ∧
      (∀ a w2, get_double_input E fuel "Enter side a" 1 w1 = some (.num a, w2) →
        handle_trig_operations E fuel w =
          match get_double_input E fuel "Enter side b" 1 w2 with
          | none => none
          | some (.NAN, w3) => some (.NAN, w3)
          | some (.num b, w3) =>
            some (hypotenuse E (.num a) (.num b),
              w3.printf ("Hypotenuse of " ++ E.fmt4 (.num a) ++ " and " ++ E.fmt4 (.num b)
                ++ " is " ++ E.fmt4 (hypotenuse E (.num a) (.num b)) ++ "\n")))) := by
  constructor
  · intro c w1 hm hc
    have h1 : ¬ (c = -1 ∨ c = 11) := by omega
    have h2 : ¬ (c = 6 ∨ c = 7 ∨ c = 8) := by omega
    have h3 : ¬ c = 10 := by omega
    have h4 : ¬ c = 5 := by omega
    constructor
    · intro w2 ha
      simp only [handle_math_operations, handle_math_operations_with, hm]
      rw [if_neg h1, if_neg h2, if_neg h3, if_neg h4, ha]
      simp
    · intro a w2 ha
      simp only [handle_math_operations, handle_math_operations_with, hm]
      rw [if_neg h1, if_neg h2, if_neg h3, if_neg h4, ha]
      simp only [isnan_num]
      rcases get_double_input E fuel "Enter the second number (b)" 1 w2 with _ | ⟨b, w3⟩
      · rfl
      · cases b <;> simp
  · intro w1 hm
    constructor
    · intro w2 ha
      simp only [handle_trig_operations, handle_trig_operations_with, hm]
      rw [if_pos trivial, ha]
      simp
    · intro a w2 ha
      simp only [handle_trig_operations, handle_trig_operations_with, hm]
      rw [if_pos trivial, ha]
      simp only [isnan_num]
      rcases get_double_input E fuel "Enter side b" 1 w2 with _ | ⟨b, w3⟩
      · rfl
      · cases b <;> simp

/-- Witness for C6: in the Math session `1` (Add), `abc`, `7` the first
operand is unreadable, the handler returns the no-value marker and the line
`7` is still unread; in the session `1`, `20`, `22` both operands are read in
order and the sum 42 is returned. -/
theorem C6_first_operand_first_witness :
    (∃ w2, handle_math_operations intEnv 1 (World.start "1\nabc\n7\n") = some (.NAN, w2) ∧
      w2.stdin = "7\n".toList) ∧
    (∃ w3, handle_math_operations intEnv 1 (World.start "1\n20\n22\n")
      = some (Double.ofInt 42, w3)) := by
  constructor
  · have h := ((C6_first_operand_first intEnv 1 (World.start "1\nabc\n7\n")).1 1 _ rfl
      (Or.inl rfl)).1 _ rfl
    exact ⟨_, h, rfl⟩
  · apply Exists.intro
    rw [((C6_first_operand_first intEnv 1 (World.start "1\n20\n22\n")).1 1 _ rfl
      (Or.inl rfl)).2 (Num.ofInt 20) _ rfl]
    rfl

/-! ## Factorial (C7) -/

theorem get_menu_choice_ok (m c : Int) (w : World) (r0 r1 : List Char)
    (hs : scanf_d w.stdin = (some c, r0)) (hl : skipLine r0 = some r1)
    (h1 : 1 ≤ c) (h2 : c ≤ m) : get_menu_choice m w = some (c, w.setIn r1) := by
  have hc : ¬ (c < 1 ∨ c > m) := by omega
  simp only [get_menu_choice, hs, hl]
  rw [if_neg hc]

theorem factorial_exact (n : Int) (w : World) (h0 : 0 ≤ n) (h20 : n ≤ 20) :
    (factorial n w).1 = n.toNat.factorial := by
  interval_cases n <;> rfl

theorem factorial_out_of_range (n : Int) (w : World) (h : n < 0 ∨ 20 < n) :
    (factorial n w).1 = 0 := by
  unfold factorial
  rcases h with h | h
  · rw [if_pos h]
  · have h' : ¬ n < 0 := by omega
    rw [if_neg h', if_pos h]

theorem factorial_value_small (n : Int) (h0 : 0 ≤ n) (h20 : n ≤ 20) :
    0 < n.toNat.factorial ∧ n.toNat.factorial < 9223372036854775808 := by
  interval_cases n <;> decide

/-- C7: for `0 ≤ n ≤ 20`, `factorial(n)` is the exact `n!` (the 64-bit
products never wrap) and is not 0; for `n < 0` and for `n > 20` it is the
error signal 0.  Hence the Math handler with choice 10, once it has read the
integer `n` and the rest of its line, returns `(double)n!` when `0 ≤ n ≤ 20` and
the no-value marker exactly when `n` lies outside that range. -/
theorem C7_factorial (E : FloatEnv) (gdi : Resolver) (n : Int) (w : World) :
    (0 ≤ n ∧ n ≤ 20 → (factorial n w).1 = n.toNat.factorial ∧ (factorial n w).1 ≠ 0) ∧
    (n < 0 ∨ 20 < n → (factorial n w).1 = 0) ∧
    (∀ r0 r1 r2 r3, scanf_d w.stdin = (some 10, r0) → skipLine r0 = some r1 →
      scanf_d r1 = (some n, r2) → skipLine r2 = some r3 →
      ∃ d w', handle_math_operations_with E gdi w = some (d, w') ∧ w'.stdin = r3 ∧
        (d = .NAN ↔ (n < 0 ∨ 20 < n)) ∧
        (0 ≤ n ∧ n ≤ 20 → d = Double.ofInt n.toNat.factorial)) := by
  refine ⟨fun h => ⟨factorial_exact n w h.1 h.2, ?_⟩, factorial_out_of_range n w, ?_⟩
  · rw [factorial_exact n w h.1 h.2]
    exact Nat.factorial_ne_zero _
  · intro r0 r1 r2 r3 hs0 hl0 hs1 hl1
    have hm : get_menu_choice 11 (w.printf math_menu) = some (10, (w.printf math_menu).setIn r1) :=
      get_menu_choice_ok 11 10 _ r0 r1 hs0 hl0 (by decide) (by decide)
    simp only [handle_math_operations_with, hm]
    rw [if_pos trivial]
    simp only [math_factorial, printf_stdin, setIn_stdin, hs1, hl1]
    by_cases hr : 0 ≤ n ∧ n ≤ 20
    · have hex := factorial_exact n
        (((w.printf math_menu).setIn r1).printf "Enter a non-negative integer (n): " |>.setIn r3)
        hr.1 hr.2
      have hmem := factorial_stdin n
        (((w.printf math_menu).setIn r1).printf "Enter a non-negative integer (n): " |>.setIn r3)
      generalize factorial n
        (((w.printf math_menu).setIn r1).printf "Enter a non-negative integer (n): " |>.setIn r3)
        = pr at hex hmem
      obtain ⟨res, w1⟩ := pr
      simp only at hex hmem
      subst hex
      obtain ⟨hpos, hlt⟩ := factorial_value_small n hr.1 hr.2
      have hw : wrap64 ((n.toNat.factorial : Nat) : Int) = (n.toNat.factorial : Int) := by
        unfold wrap64; omega
      simp only [hw]
      have hne : ((n.toNat.factorial : Nat) : Int) ≠ 0 := by omega
      rw [if_pos hne]
      refine ⟨_, _, rfl, ?_, ?_, fun _ => rfl⟩
      · simpa using hmem
      · constructor
        · intro h; cases h
        · intro h; omega
    · have hout : n < 0 ∨ 20 < n := by omega
      have hex := factorial_out_of_range n
        (((w.printf math_menu).setIn r1).printf "Enter a non-negative integer (n): " |>.setIn r3)
        hout
      have hmem := factorial_stdin n
        (((w.printf math_menu).setIn r1).printf "Enter a non-negative integer (n): " |>.setIn r3)
      generalize factorial n
        (((w.printf math_menu).setIn r1).printf "Enter a non-negative integer (n): " |>.setIn r3)
        = pr at hex hmem
      obtain ⟨res, w1⟩ := pr
      simp only at hex hmem
      subst hex
      refine ⟨.NAN, w1, by simp [wrap64], by simpa using hmem, ?_, fun h => absurd h hr⟩
      exact ⟨fun _ => hout, fun _ => rfl⟩

/-- Witness for C7: the Math session `10`, `5` returns `(double)120`, and the
session `10`, `21` returns the no-value marker. -/
theorem C7_factorial_witness :
    (∃ w', handle_math_operations intEnv 0 (World.start "10\n5\n") = some (Double.ofInt 120, w')) ∧
    (∃ w', handle_math_operations intEnv 0 (World.start "10\n21\n") = some (.NAN, w')) := by
  constructor
  · obtain ⟨d, w', h, -, -, hd⟩ := (C7_factorial intEnv (get_double_input intEnv 0) 5
      (World.start "10\n5\n")).2.2 "\n5\n".toList "5\n".toList "\n".toList [] (by decide)
      (by decide) (by decide) (by decide)
    rw [hd (by decide)] at h
    exact ⟨w', h⟩
  · obtain ⟨d, w', h, -, hd, -⟩ := (C7_factorial intEnv (get_double_input intEnv 0) 21
      (World.start "10\n21\n")).2.2 "\n21\n".toList "21\n".toList "\n".toList [] (by decide)
      (by decide) (by decide) (by decide)
    rw [hd.2 (by decide)] at h
    exact ⟨w', h⟩

/-! ## Binary round trip (C8) -/

theorem dec_to_bin_loop_acc (k : Nat) :
    ∀ (t : Nat) (buf : List Char), dec_to_bin_loop k t buf = buf ++ dec_to_bin_loop k t [] := by
  induction k with
  | zero => intro t buf; simp [dec_to_bin_loop]
  | succ k ih =>
    intro t buf
    unfold dec_to_bin_loop
    split_ifs
    · rw [ih, ih (t / 2) ([] ++ _)]; simp
    · simp

theorem dec_to_bin_loop_zero (k : Nat) : dec_to_bin_loop k 0 [] = [] := by
  cases k <;> simp [dec_to_bin_loop]

theorem dec_to_bin_loop_step (k t : Nat) (ht : 0 < t) :
    dec_to_bin_loop (k + 1) t [] =
      (if t % 2 = 1 then '1' else '0') :: dec_to_bin_loop k (t / 2) [] := by
  have hd : Char.ofNat (t % 2 + '0'.toNat) = (if t % 2 = 1 then '1' else '0') := by
    rcases Nat.mod_two_eq_zero_or_one t with h | h <;> rw [h] <;> rfl
  rw [dec_to_bin_loop, if_pos ht, dec_to_bin_loop_acc, hd]
  rfl

theorem dec_to_bin_loop_digits (k : Nat) :
    ∀ (t : Nat), ∀ c ∈ dec_to_bin_loop k t [], c = '0' ∨ c = '1' := by
  induction k with
  | zero => intro t c hc; simp [dec_to_bin_loop] at hc
  | succ k ih =>
    intro t c hc
    rcases Nat.eq_zero_or_pos t with h0 | hpos
    · subst h0; rw [dec_to_bin_loop_zero] at hc; simp at hc
    · rw [dec_to_bin_loop_step k t hpos] at hc
      rcases List.mem_cons.mp hc with h | h
      · subst h; split_ifs <;> simp
      · exact ih _ c h

theorem wrap64_id (x : Int) (h0 : -9223372036854775808 ≤ x) (h1 : x < 9223372036854775808) :
    wrap64 x = x := by
  unfold wrap64; omega

theorem bin_to_dec_loop_bits (k : Nat) :
    ∀ (t : Nat) (dec base : Int) (w : World), t < 2 ^ k → 0 ≤ dec → 0 < base →
      dec + (t : Int) * base < 9223372036854775808 →
      bin_to_dec_loop (dec_to_bin_loop k t []) dec base w = (dec + (t : Int) * base, w) := by
  induction k with
  | zero =>
    intro t dec base w ht _ _ _
    have : t = 0 := by simpa using ht
    subst this
    simp [dec_to_bin_loop, bin_to_dec_loop]
  | succ k ih =>
    intro t dec base w ht hdec hbase hlt
    rcases Nat.eq_zero_or_pos t with h0 | hpos
    · subst h0
      rw [dec_to_bin_loop_zero]
      simp [bin_to_dec_loop]
    · rw [dec_to_bin_loop_step k t hpos]
      have hq : t / 2 < 2 ^ k := by
        rw [Nat.div_lt_iff_lt_mul (by decide)]
        calc t < 2 ^ (k + 1) := ht
          _ = 2 ^ k * 2 := by ring
      have hsplit : (t : Int) * base = 2 * (((t / 2 : Nat) : Int) * base)
          + ((t % 2 : Nat) : Int) * base := by
        have : (t : Int) = 2 * ((t / 2 : Nat) : Int) + ((t % 2 : Nat) : Int) := by
          have := Nat.div_add_mod t 2
          omega
        rw [this]
        push_cast
        ring
      have hX : 0 ≤ ((t / 2 : Nat) : Int) * base :=
        mul_nonneg (Int.ofNat_nonneg _) (le_of_lt hbase)
      rcases Nat.mod_two_eq_zero_or_one t with hm | hm
      · -- digit '0'
        have hq0 : 0 < t / 2 := by omega
        have hXge : base ≤ ((t / 2 : Nat) : Int) * base := by
          have h1 : (1 : Int) ≤ ((t / 2 : Nat) : Int) := by exact_mod_cast hq0
          nlinarith
        rw [hm] at hsplit
        simp only [Nat.cast_zero, zero_mul, add_zero] at hsplit
        have hd : (if t % 2 = 1 then '1' else '0') = '0' := by rw [hm]; rfl
        rw [hd, bin_to_dec_loop, if_neg (by decide), if_neg (by decide),
          wrap64_id (base * 2) (by omega) (by omega),
          ih (t / 2) dec (base * 2) w hq hdec (by omega) (by nlinarith)]
        congr 1
        rw [hsplit]; ring
      · -- digit '1'
        rw [hm] at hsplit
        simp only [Nat.cast_one, one_mul] at hsplit
        have hd : (if t % 2 = 1 then '1' else '0') = '1' := by rw [hm]; rfl
        rw [hd, bin_to_dec_loop, if_pos rfl, wrap64_id (dec + base) (by omega) (by omega)]
        rcases Nat.eq_zero_or_pos (t / 2) with hq0 | hq0
        · rw [hq0, dec_to_bin_loop_zero]
          rw [hq0] at hsplit
          simp only [Nat.cast_zero, zero_mul, mul_zero, zero_add] at hsplit
          simp only [bin_to_dec_loop]
          rw [hsplit]
        · have hXge : base ≤ ((t / 2 : Nat) : Int) * base := by
            have h1 : (1 : Int) ≤ ((t / 2 : Nat) : Int) := by exact_mod_cast hq0
            nlinarith
          rw [wrap64_id (base * 2) (by omega) (by omega),
            ih (t / 2) (dec + base) (base * 2) w hq (by omega) (by omega) (by nlinarith)]
          congr 1
          rw [hsplit]; ring

theorem bin_to_dec_loop_minus (l : List Char) (hl : ∀ c ∈ l, c = '0' ∨ c = '1') :
    ∀ (dec base : Int) (w : World), (bin_to_dec_loop (l ++ ['-']) dec base w).1 = -1 := by
  induction l with
  | nil =>
    intro dec base w
    simp [bin_to_dec_loop]
  | cons c cs ih =>
    intro dec base w
    have hcs : ∀ c ∈ cs, c = '0' ∨ c = '1' := fun x hx => hl x (List.mem_cons_of_mem _ hx)
    rcases hl c (List.mem_cons_self _ _) with h | h
    · subst h
      rw [List.cons_append, bin_to_dec_loop, if_neg (by decide), if_neg (by decide)]
      exact ih hcs _ _ _
    · subst h
      rw [List.cons_append, bin_to_dec_loop, if_pos rfl]
      exact ih hcs _ _ _

theorem dec_to_bin_stdout (dec : Int) (w : World) (T : Nat)
    (hT : (llabs dec % 18446744073709551616).toNat = T) (h0 : dec ≠ 0) (ht : T ≠ 0) :
    (dec_to_bin dec w).stdout =
      w.stdout ++ "Binary: ".toList ++ ((if dec < 0 then ['-'] else []) ++
        (dec_to_bin_loop 64 T []).reverse) ++ "\n".toList := by
  unfold dec_to_bin
  rw [if_neg h0, hT]
  simp only
  rw [if_neg ht]
  generalize (dec_to_bin_loop 64 T []).reverse = ds
  have h1 : ("Binary: " ++ "-").toList = "Binary: ".toList ++ ['-'] := by decide
  have h2 : ("Binary: " ++ "").toList = "Binary: ".toList := by decide
  by_cases hneg : dec < 0
  · rw [if_pos hneg, if_pos hneg]
    simp only [World.printf, World.write, h1, List.append_assoc]
  · rw [if_neg hneg, if_neg hneg]
    simp only [World.printf, World.write, h2, List.append_assoc, List.nil_append]

/-- C8 as the code has it: for `0 ≤ n ≤ LLONG_MAX`, `dec_to_bin(n)` prints
`Binary: `, a digit string and a newline, and `bin_to_dec` of that digit
string returns `n` without printing.  For `LLONG_MIN ≤ n < 0` the printed
string is `-` followed by binary digits, and `bin_to_dec` answers `-1` on it:
the sign is rejected as an invalid binary digit. -/
theorem C8_bin_round_trip (n : Int) (w w0 : World)
    (hmin : LLONG_MIN ≤ n) (hmax : n ≤ LLONG_MAX) :
    (0 ≤ n → ∃ ds, (dec_to_bin n w).stdout = w.stdout ++ "Binary: ".toList ++ ds ++ "\n".toList ∧
      bin_to_dec ds w0 = (n, w0)) ∧
    (n < 0 → ∃ ds, (dec_to_bin n w).stdout
        = w.stdout ++ "Binary: ".toList ++ ('-' :: ds) ++ "\n".toList ∧
      (∀ c ∈ ds, c = '0' ∨ c = '1') ∧ (bin_to_dec ('-' :: ds) w0).1 = -1) := by
  unfold LLONG_MIN at hmin
  unfold LLONG_MAX at hmax
  obtain ⟨T, hT⟩ : ∃ T, (llabs n % 18446744073709551616).toNat = T := ⟨_, rfl⟩
  constructor
  · intro h0
    rcases eq_or_lt_of_le h0 with hz | hpos
    · subst hz
      refine ⟨['0'], ?_, rfl⟩
      simp only [dec_to_bin, World.printf, World.write, List.append_assoc]
      rfl
    · have hTn : T = n.toNat := by
        rw [← hT]
        unfold llabs wrap64
        omega
      refine ⟨(dec_to_bin_loop 64 T []).reverse, ?_, ?_⟩
      · rw [dec_to_bin_stdout n w T hT (by omega) (by omega), if_neg (by omega), List.nil_append]
      · unfold bin_to_dec
        rw [List.reverse_reverse, bin_to_dec_loop_bits 64 T 0 1 w0 (by omega) le_rfl
          Int.one_pos (by omega)]
        have hval : (0 : Int) + (T : Int) * 1 = n := by omega
        rw [hval]
  · intro hneg
    have ht : 0 < T := by
      rw [← hT]
      unfold llabs wrap64
      omega
    refine ⟨(dec_to_bin_loop 64 T []).reverse, ?_, ?_, ?_⟩
    · rw [dec_to_bin_stdout n w T hT (by omega) (by omega), if_pos hneg]
      rfl
    · intro c hc
      exact dec_to_bin_loop_digits 64 _ c (List.mem_reverse.mp hc)
    · unfold bin_to_dec
      rw [List.reverse_cons, List.reverse_reverse]
      exact bin_to_dec_loop_minus _ (dec_to_bin_loop_digits 64 _) _ _ _

/-- Witness for C8 as amended: 5 prints as `101` and reads back as 5; -5
prints as `-101`, which reads back as -1. -/
theorem C8_bin_round_trip_witness :
    (∃ ds, (dec_to_bin 5 (World.start "")).stdout
        = (World.start "").stdout ++ "Binary: ".toList ++ ds ++ "\n".toList ∧
      bin_to_dec ds (World.start "") = (5, World.start "")) ∧
    (∃ ds, (dec_to_bin (-5) (World.start "")).stdout
        = (World.start "").stdout ++ "Binary: ".toList ++ ('-' :: ds) ++ "\n".toList ∧
      (∀ c ∈ ds, c = '0' ∨ c = '1') ∧ (bin_to_dec ('-' :: ds) (World.start "")).1 = -1) :=
  ⟨(C8_bin_round_trip 5 (World.start "") (World.start "") (by decide) (by decide)).1 (by decide),
   (C8_bin_round_trip (-5) (World.start "") (World.start "") (by decide) (by decide)).2
     (by decide)⟩

/-- Counterexample to C8 as stated: `dec_to_bin(-5)` prints `-101`, and
`bin_to_dec("-101")` is -1, not -5. -/
theorem C8_counterexample :
    (dec_to_bin (-5) (World.start "")).stdout = "Binary: -101\n".toList ∧
    (bin_to_dec "-101".toList (World.start "")).1 = -1 ∧
    (bin_to_dec "-101".toList (World.start "")).1 ≠ -5 := by
  refine ⟨by rfl, by rfl, by decide⟩

/-! ## Hexadecimal round trip (C9) -/

theorem hex_char_facts (d : Nat) (hd : d < 16) :
    let c := if d < 10 then Char.ofNat (48 + d) else Char.ofNat (55 + d)
    isxdigit c = true ∧ isspace c = false ∧ c ≠ '-' ∧ c ≠ '+' ∧ c ≠ 'x' ∧ c ≠ 'X' ∧
      xdigitVal c = d := by
  interval_cases d <;> decide

theorem hexDigitsLSB_chars (k : Nat) :
    ∀ (u : Nat), ∀ c ∈ hexDigitsLSB k u,
      isxdigit c = true ∧ isspace c = false ∧ c ≠ '-' ∧ c ≠ '+' ∧ c ≠ 'x' ∧ c ≠ 'X' := by
  induction k with
  | zero => intro u c hc; simp [hexDigitsLSB] at hc
  | succ k ih =>
    intro u c hc
    unfold hexDigitsLSB at hc
    split_ifs at hc with h0 h10
    · simp at hc
    · rcases List.mem_cons.mp hc with h | h
      · have hf := hex_char_facts (u % 16) (Nat.mod_lt _ (by decide))
        simp only [if_pos h10] at hf
        subst h
        exact ⟨hf.1, hf.2.1, hf.2.2.1, hf.2.2.2.1, hf.2.2.2.2.1, hf.2.2.2.2.2.1⟩
      · exact ih _ c h
    · rcases List.mem_cons.mp hc with h | h
      · have hf := hex_char_facts (u % 16) (Nat.mod_lt _ (by decide))
        simp only [if_neg h10] at hf
        subst h
        exact ⟨hf.1, hf.2.1, hf.2.2.1, hf.2.2.2.1, hf.2.2.2.2.1, hf.2.2.2.2.2.1⟩
      · exact ih _ c h

theorem hexDigitsLSB_value (k : Nat) :
    ∀ (u : Nat), u < 16 ^ k →
      (hexDigitsLSB k u).foldr (fun c acc => 16 * acc + xdigitVal c) 0 = u := by
  induction k with
  | zero => intro u hu; simp at hu; subst hu; simp [hexDigitsLSB]
  | succ k ih =>
    intro u hu
    unfold hexDigitsLSB
    have hq : u / 16 < 16 ^ k := by
      rw [Nat.div_lt_iff_lt_mul (by decide)]
      calc u < 16 ^ (k + 1) := hu
        _ = 16 ^ k * 16 := by ring
    have hf := (hex_char_facts (u % 16) (Nat.mod_lt _ (by decide))).2.2.2.2.2.2
    split_ifs with h0 h10
    · subst h0; rfl
    · simp only [if_pos h10] at hf
      rw [List.foldr_cons, ih _ hq, hf]
      omega
    · simp only [if_neg h10] at hf
      rw [List.foldr_cons, ih _ hq, hf]
      omega

theorem hexValue_reverse (l : List Char) :
    hexValue l.reverse = l.foldr (fun c acc => 16 * acc + xdigitVal c) 0 := by
  unfold hexValue
  rw [List.foldl_reverse]

theorem takeWhile_all (p : Char → Bool) (l : List Char) (h : ∀ c ∈ l, p c = true) :
    l.takeWhile p = l := by
  induction l with
  | nil => rfl
  | cons c cs ih =>
    rw [List.takeWhile_cons, if_pos (h c (List.mem_cons_self _ _)),
      ih (fun x hx => h x (List.mem_cons_of_mem _ hx))]

theorem sscanf_llx_digits (l : List Char) (hne : l ≠ [])
    (hl : ∀ c ∈ l, isxdigit c = true ∧ isspace c = false ∧ c ≠ '-' ∧ c ≠ '+' ∧ c ≠ 'x' ∧ c ≠ 'X')
    (hv : hexValue l ≤ ULLONG_MAX) :
    sscanf_llx l = some (wrap64 (hexValue l)) := by
  obtain ⟨c, cs, rfl⟩ := List.exists_cons_of_ne_nil hne
  have hc := hl c (List.mem_cons_self _ _)
  have hdrop : (c :: cs).dropWhile isspace = c :: cs := by
    rw [List.dropWhile_cons, if_neg (by simp [hc.2.1])]
  have hsign : scanSign (c :: cs) = (false, c :: cs) := by
    unfold scanSign
    split
    · rename_i t h; cases h; exact absurd rfl hc.2.2.1
    · rename_i t h; cases h; exact absurd rfl hc.2.2.2.1
    · rfl
  have hpre : (match c :: cs with
      | '0' :: x :: h :: t => if (x = 'x' || x = 'X') && isxdigit h then h :: t else c :: cs
      | _ => c :: cs) = c :: cs := by
    split
    · rename_i x h t heq
      have hx := hl x (by rw [heq]; simp)
      have : (x = 'x' || x = 'X') = false := by simp [hx.2.2.2.2.1, hx.2.2.2.2.2]
      rw [this]; rfl
    · rfl
  have htake : (c :: cs).takeWhile isxdigit = c :: cs :=
    takeWhile_all _ _ (fun x hx => (hl x hx).1)
  have hnot : ¬ ULLONG_MAX < hexValue (c :: cs) := by omega
  unfold sscanf_llx
  simp only [hdrop, hsign, hpre, htake, List.isEmpty_cons, if_neg hnot]
  rfl


theorem fmt_llX_eq (dec : Int) (U : Nat) (hU : (dec % 18446744073709551616).toNat = U) :
    fmt_llX dec = if U = 0 then ['0'] else (hexDigitsLSB 16 U).reverse := by
  unfold fmt_llX
  rw [hU]

theorem sscanf_llx_fmt_llX (n : Int) (hmin : LLONG_MIN ≤ n) (hmax : n ≤ LLONG_MAX) :
    sscanf_llx (fmt_llX n) = some n := by
  unfold LLONG_MIN at hmin
  unfold LLONG_MAX at hmax
  obtain ⟨U, hU⟩ : ∃ U, (n % 18446744073709551616).toNat = U := ⟨_, rfl⟩
  rw [fmt_llX_eq n U hU]
  by_cases h0 : U = 0
  · rw [if_pos h0]
    have hn : n = 0 := by omega
    subst hn
    decide
  · rw [if_neg h0]
    have hlt : U < 16 ^ 16 := by
      have : (16 : Nat) ^ 16 = 18446744073709551616 := by norm_num
      omega
    have hval : hexValue (hexDigitsLSB 16 U).reverse = U := by
      rw [hexValue_reverse, hexDigitsLSB_value 16 U hlt]
    have hne : (hexDigitsLSB 16 U).reverse ≠ [] := by
      intro h
      rw [h] at hval
      exact h0 hval.symm
    have hw : wrap64 (U : Int) = n := by
      unfold wrap64
      omega
    rw [sscanf_llx_digits _ hne
      (fun c hc => hexDigitsLSB_chars 16 U c (List.mem_reverse.mp hc))
      (by rw [hval]; unfold ULLONG_MAX; omega), hval, hw]

/-- C9 on the code: for every `long long` `n`, `hex_to_dec` applied to the
digits `dec_to_hex(n)` prints returns `n` and prints nothing.  The conversion
handler, however, takes the value -1 for its failure sentinel: reading the
digits of `n` under choice 4 it returns `(double)n` for `n ≠ -1` and the
no-value marker for `n = -1`, whose digits are `FFFFFFFFFFFFFFFF`. -/
theorem C9_hex_round_trip (n : Int) (w : World) :
    (LLONG_MIN ≤ n ∧ n ≤ LLONG_MAX →
      (dec_to_hex n w).stdout = w.stdout ++ "Hexadecimal: ".toList ++ fmt_llX n ++ "\n".toList ∧
      hex_to_dec (fmt_llX n) w = (n, w) ∧
      ∀ rest rest', scanf_s 63 w.stdin = (some (fmt_llX n), rest) → skipLine rest = some rest' →
        ∃ w', conv_string 4 w = some (if n = -1 then .NAN else Double.ofInt n, w')) ∧
    fmt_llX (-1) = "FFFFFFFFFFFFFFFF".toList ∧
    (∀ (E : FloatEnv) (fuel : Nat), ∃ w',
      handle_conversion_operations E fuel (World.start "4\nFFFFFFFFFFFFFFFF\n")
        = some (.NAN, w')) := by
  refine ⟨fun hr => ⟨?_, ?_, ?_⟩, by decide, fun E fuel => ⟨_, rfl⟩⟩
  · simp only [dec_to_hex, World.write, List.append_assoc]
  · unfold hex_to_dec
    rw [sscanf_llx_fmt_llX n hr.1 hr.2]
  · intro rest rest' hs hl
    unfold conv_string
    simp only [printf_stdin, hs, hl]
    unfold hex_to_dec
    rw [sscanf_llx_fmt_llX n hr.1 hr.2]
    simp only
    by_cases hn : n = -1
    · rw [if_neg (by simpa using hn), if_pos hn]
      exact ⟨_, rfl⟩
    · rw [if_pos hn, if_neg hn]
      exact ⟨_, rfl⟩


/-! ## Results of the conversion handler (C10) -/

theorem conv_string_intermediate (c : Int) (hc : c = 5 ∨ c = 6) (w : World) (r : Double)
    (w' : World) (h : conv_string c w = some (r, w')) : r = .NAN := by
  unfold conv_string at h
  simp only [printf_stdin] at h
  rcases hs : scanf_s 63 w.stdin with ⟨_ | tok, rest⟩ <;> rw [hs] at h <;> simp only at h <;>
    cases hl : skipLine rest <;> rw [hl] at h <;> simp only at h
  · simp at h
  · simp at h; exact h.1.symm
  · simp at h
  · rcases hc with hc | hc <;> subst hc <;> simp at h <;> exact h.1.symm

set_option maxRecDepth 20000 in
/-- C10 on the code: `handle_conversion_operations` never returns a number
for choice 5 (Hex to Bin) or 6 (Bin to Hex), valid input or not: `result_d`
is left at `NAN` in those two cases.  The session `5`, `FF` prints
`Decimal: 255` and `Binary: 11111111` and returns the no-value marker, and so
does the session `6`, `101` after printing `Decimal: 5` and `Hexadecimal: 5`;
the sibling choices 2 and 4 do return the decimal equivalent on the same
digit strings. -/
theorem C10_conversion_results (E : FloatEnv) (fuel : Nat) :
    (∀ w c w1 r w', get_menu_choice 7 (w.printf conv_menu) = some (c, w1) → (c = 5 ∨ c = 6) →
      handle_conversion_operations E fuel w = some (r, w') → r = .NAN) ∧
    (∃ w', handle_conversion_operations E fuel (World.start "5\nFF\n") = some (.NAN, w') ∧
      w'.stdout = (conv_menu ++ "Enter the number string: "
        ++ "Decimal: 255\nBinary: 11111111\n").toList) ∧
    (∃ w', handle_conversion_operations E fuel (World.start "6\n101\n") = some (.NAN, w') ∧
      w'.stdout = (conv_menu ++ "Enter the number string: "
        ++ "Decimal: 5\nHexadecimal: 5\n").toList) ∧
    (∃ w', handle_conversion_operations E fuel (World.start "4\nFF\n")
      = some (Double.ofInt 255, w')) ∧
    (∃ w', handle_conversion_operations E fuel (World.start "2\n101\n")
      = some (Double.ofInt 5, w')) := by
  refine ⟨?_, ⟨_, rfl, rfl⟩, ⟨_, rfl, rfl⟩, ⟨_, rfl⟩, ⟨_, rfl⟩⟩
  intro w c w1 r w' hm hc h
  unfold handle_conversion_operations handle_conversion_operations_with at h
  rw [hm] at h
  simp only at h
  rw [if_neg (by omega), if_neg (by omega)] at h
  exact conv_string_intermediate c hc w1 r w' h

/-! ## Numeric parsing of the token (C5) -/

theorem math_remainder_read (w : World) (a b : Int) (r2 r3 r4 : List Char)
    (ha : scanf_lld w.stdin = (some a, r2)) (hb : scanf_lld r2 = (some b, r3))
    (hl : skipLine r3 = some r4) :
    math_remainder w =
      match remainder_op a b (((((w.printf
          "Enter two integers (a % b) - Note: R/P/Nested Op is NOT available for integer-only input.\n").printf
          "Enter the first integer (a): ").setIn r2).printf
          "Enter the second integer (b): ").setIn r4) with
      | none => none
      | some (result_ll, w1) =>
        if b ≠ 0 then
          some (Double.ofInt result_ll,
            w1.printf (fmt_lld a ++ " % " ++ fmt_lld b ++ " = " ++ fmt_lld result_ll ++ "\n"))
        else some (.NAN, w1) := by
  unfold math_remainder
  simp only [printf_stdin, setIn_stdin, ha, hb, hl]

/-- C11 on the code: with choice 5, once the integers `a` and `b` and the rest
of their line are read, the Math handler returns the no-value marker when
`b = 0`, and returns `(double)(a % b)` (truncated remainder, sign of the
dividend, zero included) when `b ≠ 0`, for every pair except
`a = LLONG_MIN`, `b = -1`: there `remainder_op` evaluates `LLONG_MIN % -1`,
whose quotient overflows, the division traps and the handler does not
return.  The sessions `5`, `17 5` and `5`, `10 5` return 2 and 0, the session
`5`, `7 0` returns the no-value marker, and the session `5`,
`-9223372036854775808 -1` does not return. -/
theorem C11_remainder (E : FloatEnv) (gdi : Resolver) (w : World) (a b : Int) :
    (∀ r0 r1 r2 r3 r4, scanf_d w.stdin = (some 5, r0) → skipLine r0 = some r1 →
      scanf_lld r1 = (some a, r2) → scanf_lld r2 = (some b, r3) → skipLine r3 = some r4 →
      (b = 0 → ∃ w', handle_math_operations_with E gdi w = some (.NAN, w') ∧ w'.stdin = r4) ∧
      (b ≠ 0 → ¬ (a = LLONG_MIN ∧ b = -1) →
        ∃ w', handle_math_operations_with E gdi w = some (Double.ofInt (Int.tmod a b), w') ∧
          w'.stdin = r4) ∧
      (a = LLONG_MIN ∧ b = -1 → handle_math_operations_with E gdi w = none)) ∧
    (∃ w', handle_math_operations_with E gdi (World.start "5\n17 5\n")
      = some (Double.ofInt 2, w')) ∧
    (∃ w', handle_math_operations_with E gdi (World.start "5\n10 5\n")
      = some (Double.ofInt 0, w')) ∧
    (∃ w', handle_math_operations_with E gdi (World.start "5\n-7 2\n")
      = some (Double.ofInt (-1), w')) ∧
    (∃ w', handle_math_operations_with E gdi (World.start "5\n7 0\n") = some (.NAN, w')) ∧
    handle_math_operations_with E gdi (World.start "5\n-9223372036854775808 -1\n") = none := by
  refine ⟨?_, ⟨_, rfl⟩, ⟨_, rfl⟩, ⟨_, rfl⟩, ⟨_, rfl⟩, rfl⟩
  intro r0 r1 r2 r3 r4 hs0 hl0 ha hb hl
  have hm : get_menu_choice 11 (w.printf math_menu) = some (5, (w.printf math_menu).setIn r1) :=
    get_menu_choice_ok 11 5 _ r0 r1 hs0 hl0 (by decide) (by decide)
  have hh : handle_math_operations_with E gdi w = math_remainder ((w.printf math_menu).setIn r1) := by
    simp only [handle_math_operations_with, hm]
    rfl
  rw [hh, math_remainder_read _ a b r2 r3 r4 ha hb hl]
  refine ⟨fun hb0 => ?_, fun hb0 hne => ?_, fun hmin => ?_⟩
  · subst hb0
    simp only [remainder_op, if_true]
    exact ⟨_, rfl, rfl⟩
  · simp only [remainder_op, if_neg hb0, if_neg hne]
    rw [if_pos hb0]
    exact ⟨_, rfl, rfl⟩
  · have hb0 : ¬ b = 0 := by omega
    simp only [remainder_op, if_neg hb0, if_pos hmin]


/-! ## Exhausted input (C12) -/

theorem skipLine_none (l : List Char) (h : ∀ c ∈ l, c ≠ '\n') : skipLine l = none := by
  induction l with
  | nil => rfl
  | cons c cs ih =>
    rw [skipLine, if_neg (h c (List.mem_cons_self _ _)),
      ih (fun x hx => h x (List.mem_cons_of_mem _ hx))]

theorem scanf_s_rest (s : List Char) : ∀ c ∈ (scanf_s 63 s).2, c ∈ s := by
  intro c hc
  unfold scanf_s at hc
  split at hc
  · simp at hc
  · rename_i a as hd
    have h1 : c ∈ a :: as := List.mem_of_mem_drop hc
    rw [← hd] at h1
    exact (List.dropWhile_sublist _).subset h1

theorem scanSign_rest (s : List Char) : ∀ c ∈ (scanSign s).2, c ∈ s := by
  intro c hc
  unfold scanSign at hc
  split at hc
  · exact List.mem_cons_of_mem _ hc
  · exact List.mem_cons_of_mem _ hc
  · exact hc

theorem scanDecimal_rest (s : List Char) : ∀ c ∈ (scanDecimal s).2, c ∈ s := by
  intro c hc
  unfold scanDecimal at hc
  simp only at hc
  split_ifs at hc <;> first
    | exact (List.dropWhile_sublist _).subset (scanSign_rest _ c hc)
    | exact (List.dropWhile_sublist _).subset
        (scanSign_rest _ c ((List.dropWhile_sublist _).subset hc))

theorem scanf_d_rest (s : List Char) : ∀ c ∈ (scanf_d s).2, c ∈ s := by
  intro c hc
  unfold scanf_d at hc
  have h := scanDecimal_rest s c
  rcases hs : scanDecimal s with ⟨_ | v, r⟩ <;> rw [hs] at hc h <;> exact h hc

theorem get_menu_choice_no_newline (m : Int) (w : World) (h : ∀ c ∈ w.stdin, c ≠ '\n') :
    get_menu_choice m w = none := by
  have hr : skipLine (scanf_d w.stdin).2 = none :=
    skipLine_none _ (fun c hc => h c (scanf_d_rest _ c hc))
  unfold get_menu_choice
  rcases hs : scanf_d w.stdin with ⟨_ | v, r⟩ <;> rw [hs] at hr <;> simp only [hr]

theorem get_double_input_no_newline (E : FloatEnv) (fuel : Nat) (prompt : String) (flag : Int)
    (w : World) (h : ∀ c ∈ w.stdin, c ≠ '\n') :
    get_double_input E fuel prompt flag w = none := by
  cases fuel with
  | zero => rfl
  | succ n =>
    have hr : skipLine (scanf_s 63 w.stdin).2 = none :=
      skipLine_none _ (fun c hc => h c (scanf_s_rest _ c hc))
    simp only [get_double_input, get_double_input_with, print_prompt_stdin]
    rcases hs : scanf_s 63 w.stdin with ⟨_ | tok, r⟩ <;> rw [hs] at hr <;> simp only [hr]

/-- C12 on the code: when the unread input holds no newline, in particular
when it is empty or exhausted, neither `get_double_input` (for any prompt,
flag and recursion budget) nor `get_menu_choice` returns: after the failed or
successful `scanf` the loop `while (getchar() != '\n');` never meets a newline
and never exits, so no error is reported and no value is returned.  When the
line is complete, a malformed menu line such as `abc` does give -1 and a
malformed operand such as `abc` does give the no-value marker.  The branch of
`get_double_input` that prints `Invalid input format.` is entered only when
`scanf` finds no token, which happens only at end of input, where the loop
does not exit: that report is never completed. -/
theorem C12_exhausted_input (E : FloatEnv) (fuel : Nat) (prompt : String) (flag : Int)
    (max_choice : Int) (w : World) :
    ((∀ c ∈ w.stdin, c ≠ '\n') →
      get_double_input E fuel prompt flag w = none ∧ get_menu_choice max_choice w = none) ∧
    get_double_input E fuel prompt flag (World.start "") = none ∧
    get_menu_choice max_choice (World.start "") = none ∧
    get_double_input E fuel prompt flag (World.start "abc") = none ∧
    get_menu_choice max_choice (World.start "abc") = none ∧
    (∃ w', get_menu_choice max_choice (World.start "abc\n") = some (-1, w') ∧
      w'.stdout = "Invalid input. Please enter a number.\n".toList) ∧
    (∃ w', get_double_input E (fuel + 1) prompt 0 (World.start "abc\n") = some (.NAN, w')) ∧
    (∀ s, (scanf_s 63 s).1 = none → skipLine (scanf_s 63 s).2 = none) := by
  refine ⟨fun h => ⟨get_double_input_no_newline E fuel prompt flag w h,
      get_menu_choice_no_newline max_choice w h⟩,
    get_double_input_no_newline E fuel prompt flag _ (by decide),
    get_menu_choice_no_newline max_choice _ (by decide),
    get_double_input_no_newline E fuel prompt flag _ (by decide),
    get_menu_choice_no_newline max_choice _ (by decide),
    ⟨_, rfl, rfl⟩, ⟨_, rfl⟩, ?_⟩
  intro s hs
  unfold scanf_s at hs ⊢
  split
  · rfl
  · rename_i heq
    rw [heq] at hs
    simp at hs

end Calculator
